import Mathlib

/-!
# drivers/cpufreq/cpufreq_mtk.c

A shallow embedding of the per-cluster CPU frequency bound manager and the
properties of its validated setters.

Conventions of the embedding.

* C `int` values are `Int`s; a value is a machine `int` when it lies in
  `[INT_MIN, INT_MAX]`.  The only place where width matters is the comparison
  `pos->frequency == freq` of an `unsigned int` with an `int`, where the `int`
  is converted to `unsigned int` (reduction modulo `2^32`).
* An array is the list of its elements; a pointer that may be `NULL` is an
  `Option`.
* A function that reads through a `NULL` pointer or outside an array has no
  result: it returns `none`.
* The calls made to the external functions `set_sched_boost` and
  `update_userlimit_cpu_freq` are recorded, in order, in the state.  Their
  return values are discarded by the source, and they are taken not to write
  to `current_cpu_freq`.
* The kernel routines the driver calls for its surroundings (`kstrtoint`,
  `kcalloc`, `sysfs_create_group`, the pointer `cpufreq_global_kobject`) are
  arguments of the functions that use them.
* The embedding is sequential: one call runs at a time on an explicit state,
  and `cpufreq_mtk_mutex` does not appear in it.
-/

namespace CpufreqMtk

/-! ## Constants -/

/-- The macro `CLUSTER_NUM` of the source. -/
def CLUSTER_NUM : Nat := 2

/-- The macro `LITTLE` of the source. -/
def LITTLE : Int := 0

/-- The macro `BIG` of the source. -/
def BIG : Int := 1

/-- The errno `EINVAL` (22), from the kernel's errno header. -/
def EINVAL : Int := 22

/-- Smallest value of a 32-bit C `int`. -/
def INT_MIN : Int := -2147483648

/-- Largest value of a 32-bit C `int`. -/
def INT_MAX : Int := 2147483647

/-- The end marker `CPUFREQ_TABLE_END` of a frequency table, `~1u`, as the
kernel header `include/linux/cpufreq.h` declares it. -/
def CPUFREQ_TABLE_END : Nat := 4294967294

/-- The marker `CPUFREQ_ENTRY_INVALID` of a table entry to skip, `~0u`, as the
kernel header `include/linux/cpufreq.h` declares it. -/
def CPUFREQ_ENTRY_INVALID : Nat := 4294967295

/-- A value is a machine `int`. -/
def is_int (v : Int) : Prop := INT_MIN ≤ v ∧ v ≤ INT_MAX

instance (v : Int) : Decidable (is_int v) := by
  unfold is_int; exact inferInstance

/-- Conversion of an `int` to `unsigned int`, as in `pos->frequency == freq`. -/
def to_unsigned (v : Int) : Nat := (v % 4294967296).toNat

/-! ## Data model -/

/-- The C type `struct ppm_limit_data { int min; int max; }` (declared in
`cpu_ctrl.h`). -/
structure ppm_limit_data where
  min : Int
  max : Int
deriving DecidableEq, Repr

/-- The kinds of scheduler boost passed to `set_sched_boost` by the source
(declared in `sched_ctl.h`). -/
inductive sched_boost_type where
  | SCHED_NO_BOOST
  | SCHED_ALL_BOOST
deriving DecidableEq, Repr

/-- The consumer tag passed to `update_userlimit_cpu_freq` by the source
(declared in `cpu_ctrl.h`). -/
inductive ppm_kicker where
  | CPU_KIR_PERF
deriving DecidableEq, Repr

/-- A call to an external function, with its arguments. -/
inductive Call where
  | set_sched_boost (val : sched_boost_type)
  | update_userlimit_cpu_freq (kicker : ppm_kicker) (num_cluster : Nat)
      (freq_limit : List ppm_limit_data)
deriving DecidableEq, Repr

/-- A frequency table as it lies in memory: the `frequency` fields of the
consecutive elements of the array the pointer points to. -/
abbrev FreqTable := List Nat

/-- The global state of the driver.

* `cpuftbl` is the static array `cpuftbl[CLUSTER_NUM]` of table pointers
  (`none` is `NULL`);
* `current_cpu_freq` is the array `current_cpu_freq` points to;
* `calls` is the record of external calls, oldest first. -/
structure State where
  cpuftbl : List (Option FreqTable)
  current_cpu_freq : List ppm_limit_data
  calls : List Call
deriving DecidableEq, Repr

/-- Reading `xs[i]` for a C `int` index: no result outside the array. -/
def idx {α : Type} (xs : List α) (i : Int) : Option α :=
  if 0 ≤ i then xs[i.toNat]? else none

/-! ## The source functions -/

/-- The loop
`cpufreq_for_each_valid_entry (pos, tbl) { if (pos->frequency == freq) return 1; }`
of `is_freq_valid`, on the elements from `pos` on.  The macro is the one of
the kernel header `include/linux/cpufreq.h`,
`for (pos = table; pos->frequency != CPUFREQ_TABLE_END; pos++)
   if (pos->frequency == CPUFREQ_ENTRY_INVALID) continue; else ...`:
it reads `pos->frequency` before anything else, with no test of `table`.
The result is `some true` when the body returns 1, `some false` when the loop
ends at the end marker, and `none` when the walk leaves the array. -/
def for_each_valid_entry_find (freq : Nat) : FreqTable → Option Bool
  | [] => none
  | f :: rest =>
    if f = CPUFREQ_TABLE_END then some false
    else if f = CPUFREQ_ENTRY_INVALID then for_each_valid_entry_find freq rest
    else if f = freq then some true
    else for_each_valid_entry_find freq rest

/-- The function `is_freq_valid(cluster, freq)`.  It only reads the state.
There is no result when `cluster` is outside `cpuftbl`, when `cpuftbl[cluster]`
is `NULL` (the walk starts by reading `pos->frequency`), or when the walk
leaves the table. -/
def is_freq_valid (st : State) (cluster freq : Int) : Option Int :=
  if freq = -1 then some 1
  else
    match idx st.cpuftbl cluster with
    | none => none
    | some none => none
    | some (some tbl) =>
      match for_each_valid_entry_find (to_unsigned freq) tbl with
      | none => none
      | some true => some 1
      | some false => some 0

/-- The function `update_cpu_freq(cluster)`; `sched_boost` tells whether
`CONFIG_MTK_SCHED_BOOST` is defined. -/
def update_cpu_freq (sched_boost : Bool) (st : State) (cluster : Int) :
    Option State :=
  if sched_boost then
    match idx st.current_cpu_freq cluster with
    | none => none
    | some cur =>
      let sched_boost_type :=
        if cur.min > 0 ∨ cur.max > 0 then sched_boost_type.SCHED_ALL_BOOST
        else sched_boost_type.SCHED_NO_BOOST
      some { st with
        calls := st.calls ++
          [Call.set_sched_boost sched_boost_type,
           Call.update_userlimit_cpu_freq ppm_kicker.CPU_KIR_PERF CLUSTER_NUM
             st.current_cpu_freq] }
  else
    some { st with
      calls := st.calls ++
        [Call.update_userlimit_cpu_freq ppm_kicker.CPU_KIR_PERF CLUSTER_NUM
           st.current_cpu_freq] }

/-- The function `set_max_cpu_freq(cluster, max)`: the returned status and the
state after the call. -/
def set_max_cpu_freq (sched_boost : Bool) (st : State) (cluster max : Int) :
    Option (Int × State) :=
  match is_freq_valid st cluster max with
  | none => none
  | some valid =>
    if valid = 0 then some (-EINVAL, st)
    else
      match idx st.current_cpu_freq cluster with
      | none => none
      | some cur =>
        if max < cur.min ∧ cur.min > 0 then some (-EINVAL, st)
        else
          let st1 := { st with
            current_cpu_freq := st.current_cpu_freq.set cluster.toNat
              { cur with max := if max > 0 then max else -1 } }
          match update_cpu_freq sched_boost st1 cluster with
          | none => none
          | some st2 => some (0, st2)

/-- The function `set_min_cpu_freq(cluster, min)`: the returned status and the
state after the call. -/
def set_min_cpu_freq (sched_boost : Bool) (st : State) (cluster min : Int) :
    Option (Int × State) :=
  match is_freq_valid st cluster min with
  | none => none
  | some valid =>
    if valid = 0 then some (-EINVAL, st)
    else
      match idx st.current_cpu_freq cluster with
      | none => none
      | some cur =>
        if min > cur.max ∧ cur.max > 0 then some (-EINVAL, st)
        else
          let st1 := { st with
            current_cpu_freq := st.current_cpu_freq.set cluster.toNat
              { cur with min := if min > 0 then min else -1 } }
          match update_cpu_freq sched_boost st1 cluster with
          | none => none
          | some st2 => some (0, st2)

/-! ## Runs of the setters -/

/-- The state after `cpufreq_mtk_init` has allocated the bound array and set
every field to -1 (lines 246 to 258 of the source), with the table pointers
`tbls` and no external call made yet. -/
def init_state (tbls : List (Option FreqTable)) : State :=
  { cpuftbl := tbls
    current_cpu_freq := List.replicate CLUSTER_NUM { min := -1, max := -1 }
    calls := [] }

/-- The states reached from `init_state tbls` by calls of `set_min_cpu_freq`
and `set_max_cpu_freq` that return, accepted or rejected, on a cluster in
`{0, 1}` with a machine `int` as value. -/
inductive Reachable (sched_boost : Bool) (tbls : List (Option FreqTable)) :
    State → Prop where
  | init : tbls.length = CLUSTER_NUM → Reachable sched_boost tbls (init_state tbls)
  | set_min {st st1 : State} {cluster v r : Int} :
      Reachable sched_boost tbls st → (cluster = 0 ∨ cluster = 1) → is_int v →
      set_min_cpu_freq sched_boost st cluster v = some (r, st1) →
      Reachable sched_boost tbls st1
  | set_max {st st1 : State} {cluster v r : Int} :
      Reachable sched_boost tbls st → (cluster = 0 ∨ cluster = 1) → is_int v →
      set_max_cpu_freq sched_boost st cluster v = some (r, st1) →
      Reachable sched_boost tbls st1

/-- The frequencies a table offers: the entries before the end marker that are
not marked invalid. -/
def table_entries (tbl : FreqTable) : List Nat :=
  (tbl.takeWhile (fun f => decide (f ≠ CPUFREQ_TABLE_END))).filter
    (fun f => decide (f ≠ CPUFREQ_ENTRY_INVALID))

/-- The frequencies offered by the table of a cluster; none when the pointer is
`NULL` or the cluster has no slot. -/
def cluster_entries (tbls : List (Option FreqTable)) (cluster : Int) : List Nat :=
  match idx tbls cluster with
  | some (some tbl) => table_entries tbl
  | _ => []

/-- The bounds every stored pair is expected to satisfy: each field is -1 or
positive, and the fields are ordered when both are positive. -/
def bound_ok (b : ppm_limit_data) : Prop :=
  (b.min = -1 ∨ 0 < b.min) ∧ (b.max = -1 ∨ 0 < b.max) ∧
    (0 < b.min → 0 < b.max → b.min ≤ b.max)

/-- The invariant carried along a run: the bound array has `CLUSTER_NUM`
elements and every pair in it satisfies `bound_ok`. -/
def store_ok (st : State) : Prop :=
  st.current_cpu_freq.length = CLUSTER_NUM ∧ ∀ b ∈ st.current_cpu_freq, bound_ok b

/-! ## The states of the scenarios -/

/-- The table of the scenarios, {300000, 600000, 900000}, as an array closed by
the end marker. -/
def table_A : FreqTable := [300000, 600000, 900000, CPUFREQ_TABLE_END]

/-- The table pointers of the scenarios: cluster 0 has `table_A`, cluster 1 has
no table registered. -/
def tables_A : List (Option FreqTable) := [some table_A, none]

/-- The table pointers once both clusters have been registered, each with
`table_A`. -/
def tables_B : List (Option FreqTable) := [some table_A, some table_A]

/-- The external calls of an accepted setter call that leaves the bound array
`bounds`, when `CONFIG_MTK_SCHED_BOOST` is defined. -/
def calls_of (boost : sched_boost_type) (bounds : List ppm_limit_data) : List Call :=
  [Call.set_sched_boost boost,
   Call.update_userlimit_cpu_freq ppm_kicker.CPU_KIR_PERF CLUSTER_NUM bounds]

/-- The state after `set_max_cpu_freq(0, 600000)` from the initial state. -/
def state_A1 : State :=
  { cpuftbl := tables_A
    current_cpu_freq := [⟨-1, 600000⟩, ⟨-1, -1⟩]
    calls := calls_of sched_boost_type.SCHED_ALL_BOOST [⟨-1, 600000⟩, ⟨-1, -1⟩] }

/-- The state after `set_max_cpu_freq(0, 900000)` from `state_A1`. -/
def state_C1 : State :=
  { cpuftbl := tables_A
    current_cpu_freq := [⟨-1, 900000⟩, ⟨-1, -1⟩]
    calls := state_A1.calls ++
      calls_of sched_boost_type.SCHED_ALL_BOOST [⟨-1, 900000⟩, ⟨-1, -1⟩] }

/-- The state after `set_min_cpu_freq(0, 300000)` from `state_C1`. -/
def state_C2 : State :=
  { cpuftbl := tables_A
    current_cpu_freq := [⟨300000, 900000⟩, ⟨-1, -1⟩]
    calls := state_C1.calls ++
      calls_of sched_boost_type.SCHED_ALL_BOOST [⟨300000, 900000⟩, ⟨-1, -1⟩] }

/-- The state after `set_min_cpu_freq(0, 300000)` from the initial state. -/
def state_M1 : State :=
  { cpuftbl := tables_A
    current_cpu_freq := [⟨300000, -1⟩, ⟨-1, -1⟩]
    calls := calls_of sched_boost_type.SCHED_ALL_BOOST [⟨300000, -1⟩, ⟨-1, -1⟩] }

/-- A stored field is in order for a cluster when it is -1 or one of the
frequencies the table of the cluster offers. -/
def field_ok (tbls : List (Option FreqTable)) (cluster : Int) (x : Int) : Prop :=
  x = -1 ∨ ∃ f ∈ cluster_entries tbls cluster, (f : Int) = x

/-- Every stored field is -1 or a frequency of the table of its cluster. -/
def members_ok (tbls : List (Option FreqTable)) (st : State) : Prop :=
  ∀ (c : Int) (b : ppm_limit_data), idx st.current_cpu_freq c = some b →
    field_ok tbls c b.min ∧ field_ok tbls c b.max

/-! ## Registration, the attribute endpoints and start-up -/

/-- The errno `ENOMEM` (12), from the kernel's errno header. -/
def ENOMEM : Int := 12

/-- The errno `ENODEV` (19), from the kernel's errno header. -/
def ENODEV : Int := 19

/-- The C type `struct cpufreq_mtk_topo_config` of the source. -/
structure cpufreq_mtk_topo_config where
  ltl_cpu_start : Nat
  big_cpu_start : Nat
deriving DecidableEq, Repr

/-- The constant `topology` of the source, as defined for the machines the
source names (MT6768, MT6833, MT6853, MT6877). -/
def topology : cpufreq_mtk_topo_config :=
  { ltl_cpu_start := 0, big_cpu_start := 6 }

/-- The function `cpufreq_mtk_set_table(cpu, ftbl)`; `ftbl` is the pointer
handed in (`none` is `NULL`).  The `int` `cpu` is compared with the
`unsigned int` fields of `topology`, hence converted.  The writes are to the
slots `BIG` and `LITTLE` of the static array `cpuftbl[CLUSTER_NUM]`. -/
def cpufreq_mtk_set_table (st : State) (cpu : Int) (ftbl : Option FreqTable) :
    State :=
  if to_unsigned cpu = topology.big_cpu_start then
    { st with cpuftbl := st.cpuftbl.set BIG.toNat ftbl }
  else if to_unsigned cpu = topology.ltl_cpu_start then
    { st with cpuftbl := st.cpuftbl.set LITTLE.toNat ftbl }
  else st

/-- The function `store_lcluster_min_freq`.  The kernel routine
`kstrtoint(buf, 10, &new_freq)` is an argument: it gives the status it returns
and the value it leaves in `new_freq`.  The result is the returned `ssize_t`
and the state after the call; `count` is the byte count of a sysfs write, at
most a page, so `ret ? ret : count` keeps its value as an `ssize_t`.  The lock
taken around the setter call orders concurrent callers and has no effect on a
single call. -/
def store_lcluster_min_freq (kstrtoint : String → Int × Int) (sched_boost : Bool)
    (st : State) (buf : String) (count : Nat) : Option (Int × State) :=
  if (kstrtoint buf).1 ≠ 0 then some ((kstrtoint buf).1, st)
  else
    match set_min_cpu_freq sched_boost st LITTLE (kstrtoint buf).2 with
    | none => none
    | some (ret, st1) => some (if ret ≠ 0 then ret else (count : Int), st1)

/-- The function `store_lcluster_max_freq`, with `kstrtoint` as an argument. -/
def store_lcluster_max_freq (kstrtoint : String → Int × Int) (sched_boost : Bool)
    (st : State) (buf : String) (count : Nat) : Option (Int × State) :=
  if (kstrtoint buf).1 ≠ 0 then some ((kstrtoint buf).1, st)
  else
    match set_max_cpu_freq sched_boost st LITTLE (kstrtoint buf).2 with
    | none => none
    | some (ret, st1) => some (if ret ≠ 0 then ret else (count : Int), st1)

/-- The function `store_bcluster_min_freq`, with `kstrtoint` as an argument. -/
def store_bcluster_min_freq (kstrtoint : String → Int × Int) (sched_boost : Bool)
    (st : State) (buf : String) (count : Nat) : Option (Int × State) :=
  if (kstrtoint buf).1 ≠ 0 then some ((kstrtoint buf).1, st)
  else
    match set_min_cpu_freq sched_boost st BIG (kstrtoint buf).2 with
    | none => none
    | some (ret, st1) => some (if ret ≠ 0 then ret else (count : Int), st1)

/-- The function `store_bcluster_max_freq`, with `kstrtoint` as an argument. -/
def store_bcluster_max_freq (kstrtoint : String → Int × Int) (sched_boost : Bool)
    (st : State) (buf : String) (count : Nat) : Option (Int × State) :=
  if (kstrtoint buf).1 ≠ 0 then some ((kstrtoint buf).1, st)
  else
    match set_max_cpu_freq sched_boost st BIG (kstrtoint buf).2 with
    | none => none
    | some (ret, st1) => some (if ret ≠ 0 then ret else (count : Int), st1)

/-- The four store endpoints, each with the setter call its body makes. -/
def store_endpoints (kstrtoint : String → Int × Int) (sched_boost : Bool) :
    List ((State → String → Nat → Option (Int × State)) ×
      (State → Int → Option (Int × State))) :=
  [(store_lcluster_min_freq kstrtoint sched_boost,
      fun st v => set_min_cpu_freq sched_boost st LITTLE v),
   (store_lcluster_max_freq kstrtoint sched_boost,
      fun st v => set_max_cpu_freq sched_boost st LITTLE v),
   (store_bcluster_min_freq kstrtoint sched_boost,
      fun st v => set_min_cpu_freq sched_boost st BIG v),
   (store_bcluster_max_freq kstrtoint sched_boost,
      fun st v => set_max_cpu_freq sched_boost st BIG v)]

/-- A parse routine to run the endpoints with: it reads the text of 600000
followed by a newline as 600000 with status 0, and gives -EINVAL for every
other text. -/
def sample_kstrtoint (buf : String) : Int × Int :=
  if buf = "600000\n" then (0, 600000) else (-EINVAL, 0)

/-- The two assignments `current_cpu_freq[i].min = -1; current_cpu_freq[i].max = -1;`
of the loop of `cpufreq_mtk_init`. -/
def init_bound (arr : List ppm_limit_data) (i : Nat) : List ppm_limit_data :=
  let arr1 :=
    match arr[i]? with
    | some b => arr.set i { b with min := -1 }
    | none => arr
  match arr1[i]? with
  | some b => arr1.set i { b with max := -1 }
  | none => arr1

/-- The function `cpufreq_mtk_init`.  Its surroundings are arguments: whether
`kcalloc` returns memory, whether `cpufreq_global_kobject` is non-`NULL`, and
the status `sysfs_create_group` returns.  The result is the returned status
and the array `current_cpu_freq` points to when it is allocated and not freed
(`none` otherwise).  `kcalloc` hands out zeroed memory. -/
def cpufreq_mtk_init (kcalloc_ok : Bool) (cpufreq_global_kobject : Bool)
    (sysfs_create_group : Int) : Int × Option (List ppm_limit_data) :=
  if !kcalloc_ok then (-ENOMEM, none)
  else
    let current_cpu_freq :=
      (List.range CLUSTER_NUM).foldl init_bound
        (List.replicate CLUSTER_NUM { min := 0, max := 0 })
    if !cpufreq_global_kobject then (-ENODEV, none)
    else if sysfs_create_group ≠ 0 then (sysfs_create_group, none)
    else (sysfs_create_group, some current_cpu_freq)

/-- Tells the calls to `update_userlimit_cpu_freq` from the others. -/
def is_userlimit_call : Call → Bool
  | Call.update_userlimit_cpu_freq _ _ _ => true
  | Call.set_sched_boost _ => false

/-- Tells the calls to `set_sched_boost` from the others. -/
def is_boost_call : Call → Bool
  | Call.set_sched_boost _ => true
  | Call.update_userlimit_cpu_freq _ _ _ => false

/-! ## What a call of a setter does -/

/-- The state `update_cpu_freq` returns differs from its argument in the record
of external calls only, which grows. -/
theorem update_cpu_freq_frame {sb : Bool} {st st2 : State} {c : Int}
    (h : update_cpu_freq sb st c = some st2) :
    st2.cpuftbl = st.cpuftbl ∧ st2.current_cpu_freq = st.current_cpu_freq ∧
      ∃ new, new ≠ [] ∧ st2.calls = st.calls ++ new := by
  unfold update_cpu_freq at h
  split at h
  · split at h
    · simp at h
    · simp only [Option.some.injEq] at h
      subst h
      exact ⟨rfl, rfl, _, by simp, rfl⟩
  · simp only [Option.some.injEq] at h
    subst h
    exact ⟨rfl, rfl, _, by simp, rfl⟩

/-- A call of `set_max_cpu_freq` that returns either rejects, with -EINVAL and
the state it was given, or accepts, with 0 and the `max` field of the cluster
overwritten. -/
theorem set_max_cpu_freq_cases {sb : Bool} {st st1 : State} {c v r : Int}
    (h : set_max_cpu_freq sb st c v = some (r, st1)) :
    (r = -EINVAL ∧ st1 = st ∧
      (is_freq_valid st c v = some 0 ∨
        ∃ cur, idx st.current_cpu_freq c = some cur ∧ v < cur.min ∧ cur.min > 0)) ∨
    (r = 0 ∧ ∃ valid cur, is_freq_valid st c v = some valid ∧ valid ≠ 0 ∧
      idx st.current_cpu_freq c = some cur ∧ ¬ (v < cur.min ∧ cur.min > 0) ∧
      st1.cpuftbl = st.cpuftbl ∧
      st1.current_cpu_freq = st.current_cpu_freq.set c.toNat
        { cur with max := if v > 0 then v else -1 } ∧
      ∃ new, new ≠ [] ∧ st1.calls = st.calls ++ new) := by
  unfold set_max_cpu_freq at h
  split at h
  · simp at h
  · rename_i valid hv
    split at h
    · rename_i h0
      simp only [Option.some.injEq, Prod.mk.injEq] at h
      subst h0
      exact Or.inl ⟨h.1.symm, h.2.symm, Or.inl hv⟩
    · rename_i hne
      split at h
      · simp at h
      · rename_i cur hcur
        split at h
        · rename_i hord
          simp only [Option.some.injEq, Prod.mk.injEq] at h
          exact Or.inl ⟨h.1.symm, h.2.symm, Or.inr ⟨cur, hcur, hord⟩⟩
        · rename_i hord
          cases hup : update_cpu_freq sb
              ⟨st.cpuftbl, st.current_cpu_freq.set c.toNat ⟨cur.min, if v > 0 then v else -1⟩,
                st.calls⟩ c with
          | none => simp only [hup] at h; simp at h
          | some st2 =>
            simp only [hup, Option.some.injEq, Prod.mk.injEq] at h
            obtain ⟨hr, hst⟩ := h
            subst hst
            obtain ⟨h1, h2, h3⟩ := update_cpu_freq_frame hup
            exact Or.inr ⟨hr.symm, valid, cur, hv, hne, hcur, hord, h1, h2, h3⟩

/-- A call of `set_min_cpu_freq` that returns either rejects, with -EINVAL and
the state it was given, or accepts, with 0 and the `min` field of the cluster
overwritten. -/
theorem set_min_cpu_freq_cases {sb : Bool} {st st1 : State} {c v r : Int}
    (h : set_min_cpu_freq sb st c v = some (r, st1)) :
    (r = -EINVAL ∧ st1 = st ∧
      (is_freq_valid st c v = some 0 ∨
        ∃ cur, idx st.current_cpu_freq c = some cur ∧ v > cur.max ∧ cur.max > 0)) ∨
    (r = 0 ∧ ∃ valid cur, is_freq_valid st c v = some valid ∧ valid ≠ 0 ∧
      idx st.current_cpu_freq c = some cur ∧ ¬ (v > cur.max ∧ cur.max > 0) ∧
      st1.cpuftbl = st.cpuftbl ∧
      st1.current_cpu_freq = st.current_cpu_freq.set c.toNat
        { cur with min := if v > 0 then v else -1 } ∧
      ∃ new, new ≠ [] ∧ st1.calls = st.calls ++ new) := by
  unfold set_min_cpu_freq at h
  split at h
  · simp at h
  · rename_i valid hv
    split at h
    · rename_i h0
      simp only [Option.some.injEq, Prod.mk.injEq] at h
      subst h0
      exact Or.inl ⟨h.1.symm, h.2.symm, Or.inl hv⟩
    · rename_i hne
      split at h
      · simp at h
      · rename_i cur hcur
        split at h
        · rename_i hord
          simp only [Option.some.injEq, Prod.mk.injEq] at h
          exact Or.inl ⟨h.1.symm, h.2.symm, Or.inr ⟨cur, hcur, hord⟩⟩
        · rename_i hord
          cases hup : update_cpu_freq sb
              ⟨st.cpuftbl, st.current_cpu_freq.set c.toNat ⟨if v > 0 then v else -1, cur.max⟩,
                st.calls⟩ c with
          | none => simp only [hup] at h; simp at h
          | some st2 =>
            simp only [hup, Option.some.injEq, Prod.mk.injEq] at h
            obtain ⟨hr, hst⟩ := h
            subst hst
            obtain ⟨h1, h2, h3⟩ := update_cpu_freq_frame hup
            exact Or.inr ⟨hr.symm, valid, cur, hv, hne, hcur, hord, h1, h2, h3⟩

/-! ## Reading and writing the bound array -/

/-- An element read from an array is one of its elements. -/
theorem mem_of_idx {α : Type} {xs : List α} {i : Int} {a : α}
    (h : idx xs i = some a) : a ∈ xs := by
  unfold idx at h
  split at h
  · exact List.getElem?_mem h
  · simp at h

/-- An array of `CLUSTER_NUM` elements has an element at 0 and at 1. -/
theorem idx_of_length {α : Type} {xs : List α} (hl : xs.length = CLUSTER_NUM)
    {c : Int} (hc : c = 0 ∨ c = 1) : ∃ a, idx xs c = some a := by
  match xs, hl with
  | [a, b], _ =>
    rcases hc with rfl | rfl
    · exact ⟨a, rfl⟩
    · exact ⟨b, rfl⟩

/-- An index at which the array has an element is not negative. -/
theorem nonneg_of_idx {α : Type} {xs : List α} {i : Int} {a : α}
    (h : idx xs i = some a) : 0 ≤ i := by
  unfold idx at h
  split at h
  · assumption
  · simp at h

/-- Reading the array after a write at a non-negative index. -/
theorem idx_set {α : Type} (xs : List α) (a : α) {c : Int} (hc : 0 ≤ c) (d : Int) :
    idx (xs.set c.toNat a) d =
      if d = c then (idx xs c).map (fun _ => a) else idx xs d := by
  unfold idx
  by_cases hd : 0 ≤ d
  · by_cases hdc : d = c
    · subst hdc
      simp only [hd, if_true, List.getElem?_set', Option.map_eq_map]
      rfl
    · have hne : c.toNat ≠ d.toNat := by omega
      simp only [hd, hc, hdc, if_true, if_false, List.getElem?_set_ne hne]
  · have hdc : d ≠ c := by omega
    simp [hd, hdc]

/-! ## The walk over a frequency table -/

/-- The entries offered by a table, read off its first element. -/
theorem table_entries_cons (f : Nat) (rest : FreqTable) :
    table_entries (f :: rest) =
      if f = CPUFREQ_TABLE_END then []
      else if f = CPUFREQ_ENTRY_INVALID then table_entries rest
      else f :: table_entries rest := by
  unfold table_entries
  by_cases h1 : f = CPUFREQ_TABLE_END
  · simp [h1, List.takeWhile_cons]
  · by_cases h2 : f = CPUFREQ_ENTRY_INVALID
    · subst h2
      simp [h1, List.takeWhile_cons]
    · simp [h1, h2, List.takeWhile_cons]

/-- The walk finds `freq` exactly when `freq` is one of the entries the table
offers. -/
theorem find_eq_true_iff (freq : Nat) (tbl : FreqTable) :
    for_each_valid_entry_find freq tbl = some true ↔ freq ∈ table_entries tbl := by
  induction tbl with
  | nil => simp [for_each_valid_entry_find, table_entries]
  | cons f rest ih =>
    rw [table_entries_cons]
    unfold for_each_valid_entry_find
    by_cases h1 : f = CPUFREQ_TABLE_END
    · rw [if_pos h1, if_pos h1]
      simp
    · rw [if_neg h1, if_neg h1]
      by_cases h2 : f = CPUFREQ_ENTRY_INVALID
      · rw [if_pos h2, if_pos h2]
        exact ih
      · rw [if_neg h2, if_neg h2]
        by_cases h3 : f = freq
        · rw [if_pos h3, h3]
          simp
        · have h3' : ¬ freq = f := fun h => h3 h.symm
          rw [if_neg h3, ih, List.mem_cons]
          exact ⟨fun h => Or.inr h, fun h => h.resolve_left h3'⟩

/-- The walk ends inside a table that holds the end marker. -/
theorem find_isSome_of_end (freq : Nat) (tbl : FreqTable)
    (h : CPUFREQ_TABLE_END ∈ tbl) :
    ∃ found, for_each_valid_entry_find freq tbl = some found := by
  induction tbl with
  | nil => simp at h
  | cons f rest ih =>
    unfold for_each_valid_entry_find
    by_cases h1 : f = CPUFREQ_TABLE_END
    · exact ⟨false, by simp only [h1, if_true]⟩
    · have hrest : CPUFREQ_TABLE_END ∈ rest := by
        rcases List.mem_cons.mp h with h | h
        · exact absurd h.symm h1
        · exact h
      obtain ⟨found, hf⟩ := ih hrest
      by_cases h2 : f = CPUFREQ_ENTRY_INVALID
      · exact ⟨found, by rw [if_neg h1, if_pos h2, hf]⟩
      · by_cases h3 : f = freq
        · exact ⟨true, by rw [if_neg h1, if_neg h2, if_pos h3]⟩
        · exact ⟨found, by rw [if_neg h1, if_neg h2, if_neg h3, hf]⟩

/-- The conversion to `unsigned int` keeps a non-negative `int`. -/
theorem to_unsigned_of_nonneg {v : Int} (h0 : 0 ≤ v) (hv : is_int v) :
    to_unsigned v = v.toNat := by
  unfold is_int INT_MIN INT_MAX at hv
  unfold to_unsigned
  rw [Int.emod_eq_of_lt h0 (by omega)]

/-- The conversion to `unsigned int` sends a negative `int` above `INT_MAX`. -/
theorem to_unsigned_of_neg {v : Int} (h0 : v < 0) (hv : is_int v) :
    2147483648 ≤ to_unsigned v := by
  unfold is_int INT_MIN INT_MAX at hv
  unfold to_unsigned
  omega

/-! ## Evaluating the source functions -/

/-- The value -1 is valid whatever the table. -/
theorem is_freq_valid_sentinel (st : State) (c : Int) :
    is_freq_valid st c (-1) = some 1 := by
  simp [is_freq_valid]

/-- A non-zero result of `is_freq_valid` comes from the early return for -1 or
from a match in the table of the cluster. -/
theorem is_freq_valid_ne_zero {st : State} {c v r : Int}
    (h : is_freq_valid st c v = some r) (hr : r ≠ 0) :
    v = -1 ∨ ∃ tbl, idx st.cpuftbl c = some (some tbl) ∧
      to_unsigned v ∈ table_entries tbl := by
  unfold is_freq_valid at h
  split at h
  · left; assumption
  · right
    split at h
    · simp at h
    · simp at h
    · rename_i tbl htbl
      refine ⟨tbl, htbl, ?_⟩
      split at h
      · simp at h
      · rename_i hfind
        exact (find_eq_true_iff _ _).mp hfind
      · simp only [Option.some.injEq] at h
        exact absurd h.symm hr

/-- On a registered table that holds the end marker, `is_freq_valid` returns 1
when the value is -1 or matches an entry, and 0 otherwise. -/
theorem is_freq_valid_eval {st : State} {c v : Int} {tbl : FreqTable}
    (htbl : idx st.cpuftbl c = some (some tbl)) (hend : CPUFREQ_TABLE_END ∈ tbl) :
    is_freq_valid st c v =
      some (if v = -1 ∨ to_unsigned v ∈ table_entries tbl then 1 else 0) := by
  unfold is_freq_valid
  by_cases hv : v = -1
  · simp [hv]
  · simp only [hv, if_false, htbl, false_or]
    obtain ⟨found, hf⟩ := find_isSome_of_end (to_unsigned v) tbl hend
    cases found with
    | true =>
      rw [hf, if_pos ((find_eq_true_iff _ _).mp hf)]
    | false =>
      have hnot : ¬ to_unsigned v ∈ table_entries tbl := by
        intro hmem
        rw [(find_eq_true_iff _ _).mpr hmem] at hf
        simp at hf
      rw [hf, if_neg hnot]

/-- A value that matches an entry of the table is valid, whether or not the
table holds an end marker further on. -/
theorem is_freq_valid_of_mem {st : State} {c v : Int} {tbl : FreqTable}
    (htbl : idx st.cpuftbl c = some (some tbl))
    (hmem : to_unsigned v ∈ table_entries tbl) :
    is_freq_valid st c v = some 1 := by
  unfold is_freq_valid
  by_cases hv : v = -1
  · simp [hv]
  · simp only [hv, if_false, htbl]
    rw [(find_eq_true_iff _ _).mpr hmem]

/-- The propagation returns when the cluster has a bound. -/
theorem update_cpu_freq_returns (sb : Bool) (st : State) {c : Int}
    {cur : ppm_limit_data} (h : idx st.current_cpu_freq c = some cur) :
    ∃ st2, update_cpu_freq sb st c = some st2 := by
  unfold update_cpu_freq
  cases sb with
  | true => simp only [if_true, h]; exact ⟨_, rfl⟩
  | false => exact ⟨_, rfl⟩

/-- A call of `set_max_cpu_freq` with a valid value on a cluster that has a
bound: rejected when the value is under a positive `min`, accepted otherwise. -/
theorem set_max_cpu_freq_eval (sb : Bool) {st : State} {c v valid : Int}
    {cur : ppm_limit_data} (hv : is_freq_valid st c v = some valid)
    (hne : valid ≠ 0) (hcur : idx st.current_cpu_freq c = some cur) :
    ((v < cur.min ∧ cur.min > 0) ∧
        set_max_cpu_freq sb st c v = some (-EINVAL, st)) ∨
      (¬ (v < cur.min ∧ cur.min > 0) ∧
        ∃ st1, set_max_cpu_freq sb st c v = some (0, st1)) := by
  unfold set_max_cpu_freq
  simp only [hv, hne, if_false, hcur]
  by_cases hord : v < cur.min ∧ cur.min > 0
  · left
    exact ⟨hord, by rw [if_pos hord]⟩
  · right
    refine ⟨hord, ?_⟩
    rw [if_neg hord]
    have hc := nonneg_of_idx hcur
    have hnew : idx (st.current_cpu_freq.set c.toNat
        ⟨cur.min, if v > 0 then v else -1⟩) c =
        some ⟨cur.min, if v > 0 then v else -1⟩ := by
      rw [idx_set _ _ hc, if_pos rfl, hcur]; rfl
    obtain ⟨st2, h2⟩ := update_cpu_freq_returns sb
      ⟨st.cpuftbl, st.current_cpu_freq.set c.toNat
        ⟨cur.min, if v > 0 then v else -1⟩, st.calls⟩ hnew
    exact ⟨st2, by simp only [h2]⟩

/-- A call of `set_min_cpu_freq` with a valid value on a cluster that has a
bound: rejected when the value is over a positive `max`, accepted otherwise. -/
theorem set_min_cpu_freq_eval (sb : Bool) {st : State} {c v valid : Int}
    {cur : ppm_limit_data} (hv : is_freq_valid st c v = some valid)
    (hne : valid ≠ 0) (hcur : idx st.current_cpu_freq c = some cur) :
    ((v > cur.max ∧ cur.max > 0) ∧
        set_min_cpu_freq sb st c v = some (-EINVAL, st)) ∨
      (¬ (v > cur.max ∧ cur.max > 0) ∧
        ∃ st1, set_min_cpu_freq sb st c v = some (0, st1)) := by
  unfold set_min_cpu_freq
  simp only [hv, hne, if_false, hcur]
  by_cases hord : v > cur.max ∧ cur.max > 0
  · left
    exact ⟨hord, by rw [if_pos hord]⟩
  · right
    refine ⟨hord, ?_⟩
    rw [if_neg hord]
    have hc := nonneg_of_idx hcur
    have hnew : idx (st.current_cpu_freq.set c.toNat
        ⟨if v > 0 then v else -1, cur.max⟩) c =
        some ⟨if v > 0 then v else -1, cur.max⟩ := by
      rw [idx_set _ _ hc, if_pos rfl, hcur]; rfl
    obtain ⟨st2, h2⟩ := update_cpu_freq_returns sb
      ⟨st.cpuftbl, st.current_cpu_freq.set c.toNat
        ⟨if v > 0 then v else -1, cur.max⟩, st.calls⟩ hnew
    exact ⟨st2, by simp only [h2]⟩

/-- Both setters return on a cluster that has a bound and a registered table
holding the end marker: no run is cut short there. -/
theorem setters_return (sb : Bool) {st : State} {c : Int} {tbl : FreqTable}
    {cur : ppm_limit_data} (v : Int)
    (htbl : idx st.cpuftbl c = some (some tbl)) (hend : CPUFREQ_TABLE_END ∈ tbl)
    (hcur : idx st.current_cpu_freq c = some cur) :
    (∃ r st1, set_max_cpu_freq sb st c v = some (r, st1)) ∧
      (∃ r st1, set_min_cpu_freq sb st c v = some (r, st1)) := by
  have hv := is_freq_valid_eval (v := v) htbl hend
  by_cases hmem : v = -1 ∨ to_unsigned v ∈ table_entries tbl
  · rw [if_pos hmem] at hv
    constructor
    · rcases set_max_cpu_freq_eval sb hv (by decide) hcur with ⟨_, h⟩ | ⟨_, st1, h⟩
      · exact ⟨_, _, h⟩
      · exact ⟨_, _, h⟩
    · rcases set_min_cpu_freq_eval sb hv (by decide) hcur with ⟨_, h⟩ | ⟨_, st1, h⟩
      · exact ⟨_, _, h⟩
      · exact ⟨_, _, h⟩
  · rw [if_neg hmem] at hv
    constructor
    · exact ⟨-EINVAL, st, by unfold set_max_cpu_freq; rw [hv]; rfl⟩
    · exact ⟨-EINVAL, st, by unfold set_min_cpu_freq; rw [hv]; rfl⟩

/-! ## The invariant of the bound store -/

theorem store_ok_init (tbls : List (Option FreqTable)) : store_ok (init_state tbls) := by
  refine ⟨by simp [init_state], ?_⟩
  intro b hb
  simp only [init_state, List.mem_replicate] at hb
  rw [hb.2]
  simp [bound_ok]

theorem store_ok_set_max {sb : Bool} {st st1 : State} {c v r : Int}
    (hst : store_ok st) (h : set_max_cpu_freq sb st c v = some (r, st1)) :
    store_ok st1 := by
  rcases set_max_cpu_freq_cases h with ⟨_, rfl, _⟩ | ⟨_, valid, cur, _, _, hcur, hord, _, hset, _⟩
  · exact hst
  · refine ⟨by rw [hset, List.length_set]; exact hst.1, ?_⟩
    intro b hb
    rw [hset] at hb
    rcases List.mem_or_eq_of_mem_set hb with hb | rfl
    · exact hst.2 b hb
    · obtain ⟨h1, h2, h3⟩ := hst.2 cur (mem_of_idx hcur)
      refine ⟨h1, ?_, ?_⟩
      · dsimp only
        split <;> omega
      · intro hmin hmax
        dsimp only at hmin hmax ⊢
        split at hmax <;> omega

theorem store_ok_set_min {sb : Bool} {st st1 : State} {c v r : Int}
    (hst : store_ok st) (h : set_min_cpu_freq sb st c v = some (r, st1)) :
    store_ok st1 := by
  rcases set_min_cpu_freq_cases h with ⟨_, rfl, _⟩ | ⟨_, valid, cur, _, _, hcur, hord, _, hset, _⟩
  · exact hst
  · refine ⟨by rw [hset, List.length_set]; exact hst.1, ?_⟩
    intro b hb
    rw [hset] at hb
    rcases List.mem_or_eq_of_mem_set hb with hb | rfl
    · exact hst.2 b hb
    · obtain ⟨h1, h2, h3⟩ := hst.2 cur (mem_of_idx hcur)
      refine ⟨?_, h2, ?_⟩
      · dsimp only
        split <;> omega
      · intro hmin hmax
        dsimp only at hmin hmax ⊢
        split at hmin <;> omega

/-- Every reachable state satisfies the invariant of the bound store. -/
theorem store_ok_of_reachable {sb : Bool} {tbls : List (Option FreqTable)}
    {st : State} (h : Reachable sb tbls st) : store_ok st := by
  induction h with
  | init _ => exact store_ok_init tbls
  | set_min _ _ _ hcall ih => exact store_ok_set_min ih hcall
  | set_max _ _ _ hcall ih => exact store_ok_set_max ih hcall

/-- The setters leave the table pointers alone: in a reachable state they are
the ones the run started with. -/
theorem cpuftbl_of_reachable {sb : Bool} {tbls : List (Option FreqTable)}
    {st : State} (h : Reachable sb tbls st) : st.cpuftbl = tbls := by
  induction h with
  | init _ => rfl
  | set_min _ _ _ hcall ih =>
    rcases set_min_cpu_freq_cases hcall with ⟨_, rfl, _⟩ | ⟨_, _, _, _, _, _, _, ht, _⟩
    · exact ih
    · rw [ht, ih]
  | set_max _ _ _ hcall ih =>
    rcases set_max_cpu_freq_cases hcall with ⟨_, rfl, _⟩ | ⟨_, _, _, _, _, _, _, ht, _⟩
    · exact ih
    · rw [ht, ih]

/-! ## Stored values come from the table -/

/-- A positive `int` accepted by `is_freq_valid` is a frequency of the table of
the cluster. -/
theorem field_ok_of_valid {st : State} {c v valid : Int}
    (hv : is_freq_valid st c v = some valid) (hne : valid ≠ 0) (hint : is_int v) :
    field_ok st.cpuftbl c (if v > 0 then v else -1) := by
  by_cases h0 : v > 0
  · rw [if_pos h0]
    rcases is_freq_valid_ne_zero hv hne with h | ⟨tbl, htbl, hmem⟩
    · omega
    · right
      have hnn : 0 ≤ v := by omega
      rw [to_unsigned_of_nonneg hnn hint] at hmem
      refine ⟨v.toNat, ?_, Int.toNat_of_nonneg hnn⟩
      simp only [cluster_entries, htbl]
      exact hmem
  · rw [if_neg h0]
    exact Or.inl rfl

theorem members_ok_init (tbls : List (Option FreqTable)) :
    members_ok tbls (init_state tbls) := by
  intro c b hb
  have hmem := mem_of_idx hb
  simp only [init_state, List.mem_replicate] at hmem
  rw [hmem.2]
  exact ⟨Or.inl rfl, Or.inl rfl⟩

theorem members_ok_set_max {sb : Bool} {st st1 : State} {c v r : Int}
    (hst : members_ok st.cpuftbl st) (hint : is_int v)
    (h : set_max_cpu_freq sb st c v = some (r, st1)) :
    members_ok st.cpuftbl st1 := by
  rcases set_max_cpu_freq_cases h with
    ⟨_, rfl, _⟩ | ⟨_, valid, cur, hv, hne, hcur, _, _, hset, _⟩
  · exact hst
  · intro d b hb
    rw [hset, idx_set _ _ (nonneg_of_idx hcur)] at hb
    by_cases hd : d = c
    · subst hd
      rw [if_pos rfl, hcur] at hb
      simp only [Option.map_some', Option.some.injEq] at hb
      subst hb
      exact ⟨(hst d cur hcur).1, field_ok_of_valid hv hne hint⟩
    · rw [if_neg hd] at hb
      exact hst d b hb

theorem members_ok_set_min {sb : Bool} {st st1 : State} {c v r : Int}
    (hst : members_ok st.cpuftbl st) (hint : is_int v)
    (h : set_min_cpu_freq sb st c v = some (r, st1)) :
    members_ok st.cpuftbl st1 := by
  rcases set_min_cpu_freq_cases h with
    ⟨_, rfl, _⟩ | ⟨_, valid, cur, hv, hne, hcur, _, _, hset, _⟩
  · exact hst
  · intro d b hb
    rw [hset, idx_set _ _ (nonneg_of_idx hcur)] at hb
    by_cases hd : d = c
    · subst hd
      rw [if_pos rfl, hcur] at hb
      simp only [Option.map_some', Option.some.injEq] at hb
      subst hb
      exact ⟨field_ok_of_valid hv hne hint, (hst d cur hcur).2⟩
    · rw [if_neg hd] at hb
      exact hst d b hb

/-- Every reachable state stores only -1 and frequencies of the tables. -/
theorem members_ok_of_reachable {sb : Bool} {tbls : List (Option FreqTable)}
    {st : State} (h : Reachable sb tbls st) : members_ok tbls st := by
  induction h with
  | init _ => exact members_ok_init tbls
  | set_min hprev _ hint hcall ih =>
    have ht := cpuftbl_of_reachable hprev
    rw [← ht] at ih ⊢
    exact members_ok_set_min ih hint hcall
  | set_max hprev _ hint hcall ih =>
    have ht := cpuftbl_of_reachable hprev
    rw [← ht] at ih ⊢
    exact members_ok_set_max ih hint hcall

/-! ## The run of the scenarios -/

theorem is_int_of_bounds {v : Int} (h1 : -2147483648 ≤ v) (h2 : v ≤ 2147483647) :
    is_int v := ⟨h1, h2⟩

theorem step_A1 :
    set_max_cpu_freq true (init_state tables_A) 0 600000 = some (0, state_A1) := by
  decide

theorem step_A2 :
    set_min_cpu_freq true state_A1 0 900000 = some (-EINVAL, state_A1) := by
  decide

theorem step_C1 : set_max_cpu_freq true state_A1 0 900000 = some (0, state_C1) := by
  decide

theorem step_C2 : set_min_cpu_freq true state_C1 0 300000 = some (0, state_C2) := by
  decide

theorem reachable_A1 : Reachable true tables_A state_A1 :=
  Reachable.set_max (Reachable.init rfl) (Or.inl rfl)
    (is_int_of_bounds (by decide) (by decide)) step_A1

theorem reachable_C1 : Reachable true tables_A state_C1 :=
  Reachable.set_max reachable_A1 (Or.inl rfl)
    (is_int_of_bounds (by decide) (by decide)) step_C1

theorem reachable_C2 : Reachable true tables_A state_C2 :=
  Reachable.set_min reachable_C1 (Or.inl rfl)
    (is_int_of_bounds (by decide) (by decide)) step_C2

/-! ## The claims -/

/-- C1 (ordering invariant, I1/P2): in every state reached from the initial
all-sentinel store by calls of `set_min_cpu_freq` and `set_max_cpu_freq`
(cluster 0 or 1, any `int` value, any tables, accepted or rejected), every
cluster has a bound, and if its `min` and `max` are both different from -1
then `min <= max`. -/
theorem ordering_invariant (sb : Bool) (tbls : List (Option FreqTable))
    (st : State) (h : Reachable sb tbls st) (c : Int) (hc : c = 0 ∨ c = 1) :
    ∃ b, idx st.current_cpu_freq c = some b ∧
      (b.min ≠ -1 → b.max ≠ -1 → b.min ≤ b.max) := by
  obtain ⟨hl, hall⟩ := store_ok_of_reachable h
  obtain ⟨b, hb⟩ := idx_of_length hl hc
  refine ⟨b, hb, ?_⟩
  intro hmin hmax
  obtain ⟨h1, h2, h3⟩ := hall b (mem_of_idx hb)
  rcases h1 with h1 | h1
  · exact absurd h1 hmin
  · rcases h2 with h2 | h2
    · exact absurd h2 hmax
    · exact h3 h1 h2

/-- Witness of C1: the state of Scenario C, where cluster 0 holds
{300000, 900000}. -/
theorem ordering_invariant_witness :
    Reachable true tables_A state_C2 ∧
      ∃ b, idx state_C2.current_cpu_freq 0 = some b ∧
        (b.min ≠ -1 → b.max ≠ -1 → b.min ≤ b.max) :=
  ⟨reachable_C2, ordering_invariant true tables_A state_C2 reachable_C2 0 (Or.inl rfl)⟩

/-- C2 (rejection is a no-op, P3): when `set_min_cpu_freq` or
`set_max_cpu_freq` returns a non-zero status, the state after the call is the
state before it: both fields of every cluster are unchanged, and so is the
record of external calls, so neither `set_sched_boost` nor
`update_userlimit_cpu_freq` was invoked. -/
theorem rejection_is_noop (sb : Bool) (st st1 : State) (c v r : Int)
    (hr : r ≠ 0) :
    (set_min_cpu_freq sb st c v = some (r, st1) → st1 = st) ∧
      (set_max_cpu_freq sb st c v = some (r, st1) → st1 = st) := by
  constructor
  · intro h
    rcases set_min_cpu_freq_cases h with ⟨_, hst, _⟩ | ⟨h0, _⟩
    · exact hst
    · exact absurd h0 hr
  · intro h
    rcases set_max_cpu_freq_cases h with ⟨_, hst, _⟩ | ⟨h0, _⟩
    · exact hst
    · exact absurd h0 hr

/-- Witness of C2: the rejected call of Scenario A, `set_min_cpu_freq(0, 900000)`
when the bound of cluster 0 is {-1, 600000}. -/
theorem rejection_is_noop_witness :
    -EINVAL ≠ 0 ∧
      set_min_cpu_freq true state_A1 0 900000 = some (-EINVAL, state_A1) ∧
      state_A1 = state_A1 :=
  ⟨by decide, step_A2,
    (rejection_is_noop true state_A1 state_A1 0 900000 (-EINVAL) (by decide)).1 step_A2⟩

/-- C3 (sentinel always accepted, P4), evaluated where the code departs from
it: in the reachable state where cluster 0 holds {300000, -1},
`set_max_cpu_freq(0, -1)` returns -EINVAL and leaves the state as it was,
because `max < min && min > 0` holds for `max = -1`; `set_min_cpu_freq(0, -1)`
is accepted in the same state. -/
theorem sentinel_max_rejected :
    Reachable true tables_A state_M1 ∧
      set_max_cpu_freq true state_M1 0 (-1) = some (-EINVAL, state_M1) ∧
      ∃ st1, set_min_cpu_freq true state_M1 0 (-1) = some (0, st1) := by
  refine ⟨?_, by decide, ?_⟩
  · exact Reachable.set_min (Reachable.init rfl) (Or.inl rfl)
      (is_int_of_bounds (by decide) (by decide))
      (show set_min_cpu_freq true (init_state tables_A) 0 300000 = some (0, state_M1)
        by decide)
  · rcases set_min_cpu_freq_eval true (is_freq_valid_sentinel state_M1 0)
      (by decide) (show idx state_M1.current_cpu_freq 0 = some ⟨300000, -1⟩ from rfl)
      with ⟨⟨h, _⟩, _⟩ | ⟨_, h⟩
    · exact absurd h (by decide)
    · exact h

/-- C4 (table membership, P1): for a cluster whose registered table holds the
end marker and offers only positive frequencies that fit a signed `int`, and
for every `int` value `v`, `is_freq_valid(cluster, v)` returns, and its result
is non-zero exactly when `v` is -1 or one of the frequencies the table offers.
The function only reads the state: its result is a status and no state. -/
theorem table_membership (st : State) (c : Int) (tbl : FreqTable) (v : Int)
    (htbl : idx st.cpuftbl c = some (some tbl))
    (hend : CPUFREQ_TABLE_END ∈ tbl)
    (hpos : ∀ f ∈ table_entries tbl, 0 < f ∧ f ≤ 2147483647)
    (hv : is_int v) :
    ∃ r, is_freq_valid st c v = some r ∧
      (r ≠ 0 ↔ (v = -1 ∨ ∃ f ∈ table_entries tbl, (f : Int) = v)) := by
  refine ⟨_, is_freq_valid_eval htbl hend, ?_⟩
  have key : to_unsigned v ∈ table_entries tbl ↔
      ∃ f ∈ table_entries tbl, (f : Int) = v := by
    constructor
    · intro hmem
      have hb := hpos _ hmem
      have h0 : 0 ≤ v := by
        by_contra hneg
        have := to_unsigned_of_neg (not_le.mp hneg) hv
        omega
      refine ⟨_, hmem, ?_⟩
      rw [to_unsigned_of_nonneg h0 hv]
      exact Int.toNat_of_nonneg h0
    · rintro ⟨f, hf, rfl⟩
      rw [to_unsigned_of_nonneg (Int.ofNat_nonneg f) hv]
      simpa using hf
  rw [← key]
  by_cases hc : v = -1 ∨ to_unsigned v ∈ table_entries tbl
  · simp [hc]
  · simp [hc]

/-- Witness of C4: the table of the scenarios and the value 600000. -/
theorem table_membership_witness :
    ∃ r, is_freq_valid (init_state tables_A) 0 600000 = some r ∧
      (r ≠ 0 ↔ ((600000 : Int) = -1 ∨ ∃ f ∈ table_entries table_A, (f : Int) = 600000)) :=
  table_membership (init_state tables_A) 0 table_A 600000 rfl (by decide)
    (by decide) (is_int_of_bounds (by decide) (by decide))

/-- C5 (table-membership invariant, I2): with the table pointers `tbls` held
fixed, in every state reached from the initial all-sentinel store by calls of
`set_min_cpu_freq` and `set_max_cpu_freq`, every cluster has a bound whose
`min` and `max` are each -1 or one of the frequencies the table of that
cluster offers. -/
theorem membership_invariant (sb : Bool) (tbls : List (Option FreqTable))
    (st : State) (h : Reachable sb tbls st) (c : Int) (hc : c = 0 ∨ c = 1) :
    ∃ b, idx st.current_cpu_freq c = some b ∧
      (b.min = -1 ∨ ∃ f ∈ cluster_entries tbls c, (f : Int) = b.min) ∧
      (b.max = -1 ∨ ∃ f ∈ cluster_entries tbls c, (f : Int) = b.max) := by
  obtain ⟨b, hb⟩ := idx_of_length (store_ok_of_reachable h).1 hc
  exact ⟨b, hb, members_ok_of_reachable h c b hb⟩

/-- Witness of C5: the state of Scenario C, where cluster 0 holds
{300000, 900000}, both from the table {300000, 600000, 900000}. -/
theorem membership_invariant_witness :
    Reachable true tables_A state_C2 ∧
      ∃ b, idx state_C2.current_cpu_freq 0 = some b ∧
        (b.min = -1 ∨ ∃ f ∈ cluster_entries tables_A 0, (f : Int) = b.min) ∧
        (b.max = -1 ∨ ∃ f ∈ cluster_entries tables_A 0, (f : Int) = b.max) :=
  ⟨reachable_C2, membership_invariant true tables_A state_C2 reachable_C2 0 (Or.inl rfl)⟩

/-- C6 (frame of a commit, P5 and step 5): an accepted `set_max_cpu_freq(c, v)`
keeps the `min` field of cluster `c`, and an accepted `set_min_cpu_freq(c, v)`
keeps its `max` field; in both cases the bound of every other cluster `d` is
the one before the call, and the array keeps its length. -/
theorem commit_frame (sb : Bool) (st st1 : State) (c v : Int) :
    (set_max_cpu_freq sb st c v = some (0, st1) →
      (∃ cur new, idx st.current_cpu_freq c = some cur ∧
        idx st1.current_cpu_freq c = some new ∧ new.min = cur.min) ∧
      (∀ d, d ≠ c → idx st1.current_cpu_freq d = idx st.current_cpu_freq d) ∧
      st1.current_cpu_freq.length = st.current_cpu_freq.length) ∧
    (set_min_cpu_freq sb st c v = some (0, st1) →
      (∃ cur new, idx st.current_cpu_freq c = some cur ∧
        idx st1.current_cpu_freq c = some new ∧ new.max = cur.max) ∧
      (∀ d, d ≠ c → idx st1.current_cpu_freq d = idx st.current_cpu_freq d) ∧
      st1.current_cpu_freq.length = st.current_cpu_freq.length) := by
  have hE : (-EINVAL : Int) ≠ 0 := by decide
  constructor
  · intro h
    rcases set_max_cpu_freq_cases h with
      ⟨h0, _⟩ | ⟨_, valid, cur, _, _, hcur, _, _, hset, _⟩
    · exact absurd h0.symm hE
    · have hc := nonneg_of_idx hcur
      refine ⟨⟨cur, ⟨cur.min, if v > 0 then v else -1⟩, hcur, ?_, rfl⟩, ?_, ?_⟩
      · rw [hset, idx_set _ _ hc, if_pos rfl, hcur]; rfl
      · intro d hd
        rw [hset, idx_set _ _ hc, if_neg hd]
      · rw [hset, List.length_set]
  · intro h
    rcases set_min_cpu_freq_cases h with
      ⟨h0, _⟩ | ⟨_, valid, cur, _, _, hcur, _, _, hset, _⟩
    · exact absurd h0.symm hE
    · have hc := nonneg_of_idx hcur
      refine ⟨⟨cur, ⟨if v > 0 then v else -1, cur.max⟩, hcur, ?_, rfl⟩, ?_, ?_⟩
      · rw [hset, idx_set _ _ hc, if_pos rfl, hcur]; rfl
      · intro d hd
        rw [hset, idx_set _ _ hc, if_neg hd]
      · rw [hset, List.length_set]

/-- Witness of C6: the accepted call `set_min_cpu_freq(0, 300000)` of
Scenario C keeps the `max` 900000 of cluster 0 and the bound of cluster 1. -/
theorem commit_frame_witness :
    set_min_cpu_freq true state_C1 0 300000 = some (0, state_C2) ∧
      (∃ cur new, idx state_C1.current_cpu_freq 0 = some cur ∧
        idx state_C2.current_cpu_freq 0 = some new ∧ new.max = cur.max) ∧
      (∀ d, d ≠ 0 → idx state_C2.current_cpu_freq d = idx state_C1.current_cpu_freq d) ∧
      state_C2.current_cpu_freq.length = state_C1.current_cpu_freq.length :=
  ⟨step_C2, (commit_frame true state_C1 state_C2 0 300000).2 step_C2⟩

/-- C7 (cross-bound check, step 3, Scenarios A and C).  In every reachable
state, for a cluster `c` in `{0, 1}` with bound `b` and a positive `int` `v`
offered by the table of `c`: `set_max_cpu_freq(c, v)` returns 0 or -EINVAL, and
it is rejected exactly when `b.min` is not -1 and `v < b.min`;
`set_min_cpu_freq(c, v)` returns 0 or -EINVAL, and it is rejected exactly when
`b.max` is not -1 and `v > b.max`.  With the table {300000, 600000, 900000}:
from {-1, -1}, setting max 600000 succeeds and gives {-1, 600000}, then
setting min 900000 is rejected and changes nothing; setting max 900000 and
then min 300000 both succeed and give {300000, 900000}, whether the two calls
follow the rejected one or start from {-1, -1}. -/
theorem cross_bound_check :
    (∀ (sb : Bool) (tbls : List (Option FreqTable)) (st : State),
      Reachable sb tbls st → ∀ c : Int, c = 0 ∨ c = 1 →
      ∀ v : Int, 0 < v → is_int v → v.toNat ∈ cluster_entries tbls c →
      ∃ b, idx st.current_cpu_freq c = some b ∧
        (∃ r st1, set_max_cpu_freq sb st c v = some (r, st1) ∧
          (r = 0 ∨ r = -EINVAL) ∧ (r ≠ 0 ↔ (b.min ≠ -1 ∧ v < b.min))) ∧
        (∃ r st1, set_min_cpu_freq sb st c v = some (r, st1) ∧
          (r = 0 ∨ r = -EINVAL) ∧ (r ≠ 0 ↔ (b.max ≠ -1 ∧ v > b.max)))) ∧
    (idx (init_state tables_A).current_cpu_freq 0 = some ⟨-1, -1⟩ ∧
      set_max_cpu_freq true (init_state tables_A) 0 600000 = some (0, state_A1) ∧
      idx state_A1.current_cpu_freq 0 = some ⟨-1, 600000⟩ ∧
      set_min_cpu_freq true state_A1 0 900000 = some (-EINVAL, state_A1) ∧
      set_max_cpu_freq true state_A1 0 900000 = some (0, state_C1) ∧
      set_min_cpu_freq true state_C1 0 300000 = some (0, state_C2) ∧
      idx state_C2.current_cpu_freq 0 = some ⟨300000, 900000⟩ ∧
      (set_max_cpu_freq true (init_state tables_A) 0 900000).map Prod.fst = some 0 ∧
      ((set_max_cpu_freq true (init_state tables_A) 0 900000).bind
          (fun p => set_min_cpu_freq true p.2 0 300000)).map
        (fun p => (p.1, idx p.2.current_cpu_freq 0)) =
        some (0, some ⟨300000, 900000⟩)) := by
  have hE : (-EINVAL : Int) ≠ 0 := by decide
  refine ⟨?_, by decide, by decide, by decide, by decide, by decide, by decide,
    by decide, by decide, by decide⟩
  intro sb tbls st hreach c hc v hv0 hint hmem
  obtain ⟨hl, hall⟩ := store_ok_of_reachable hreach
  obtain ⟨b, hb⟩ := idx_of_length hl hc
  obtain ⟨_, hbmax, _⟩ := hall b (mem_of_idx hb)
  have htbls := cpuftbl_of_reachable hreach
  have hvalid : is_freq_valid st c v = some 1 := by
    unfold cluster_entries at hmem
    split at hmem
    · rename_i tbl htbl
      rw [← htbls] at htbl
      apply is_freq_valid_of_mem htbl
      rw [to_unsigned_of_nonneg (le_of_lt hv0) hint]
      exact hmem
    · simp at hmem
  refine ⟨b, hb, ?_, ?_⟩
  · rcases set_max_cpu_freq_eval sb hvalid (by decide) hb with
      ⟨hord, hcall⟩ | ⟨hord, st1, hcall⟩
    · refine ⟨_, _, hcall, Or.inr rfl, ?_⟩
      constructor
      · intro _
        exact ⟨by omega, hord.1⟩
      · intro _
        exact hE
    · refine ⟨_, _, hcall, Or.inl rfl, ?_⟩
      constructor
      · intro h
        exact absurd rfl h
      · rintro ⟨_, hlt⟩
        exact absurd ⟨hlt, by omega⟩ hord
  · rcases set_min_cpu_freq_eval sb hvalid (by decide) hb with
      ⟨hord, hcall⟩ | ⟨hord, st1, hcall⟩
    · refine ⟨_, _, hcall, Or.inr rfl, ?_⟩
      constructor
      · intro _
        exact ⟨by omega, hord.1⟩
      · intro _
        exact hE
    · refine ⟨_, _, hcall, Or.inl rfl, ?_⟩
      constructor
      · intro h
        exact absurd rfl h
      · rintro ⟨hne, hgt⟩
        exact absurd ⟨hgt, by omega⟩ hord

/-- Witness of C7: in the state of Scenario A where cluster 0 holds
{-1, 600000}, the value 900000 of the table. -/
theorem cross_bound_check_witness :
    Reachable true tables_A state_A1 ∧ is_int 900000 ∧
      (900000 : Int).toNat ∈ cluster_entries tables_A 0 ∧
      ∃ b, idx state_A1.current_cpu_freq 0 = some b ∧
        (∃ r st1, set_max_cpu_freq true state_A1 0 900000 = some (r, st1) ∧
          (r = 0 ∨ r = -EINVAL) ∧ (r ≠ 0 ↔ (b.min ≠ -1 ∧ 900000 < b.min))) ∧
        (∃ r st1, set_min_cpu_freq true state_A1 0 900000 = some (r, st1) ∧
          (r = 0 ∨ r = -EINVAL) ∧ (r ≠ 0 ↔ (b.max ≠ -1 ∧ 900000 > b.max))) :=
  ⟨reachable_A1, is_int_of_bounds (by decide) (by decide), by decide,
    cross_bound_check.1 true tables_A state_A1 reachable_A1 0 (Or.inl rfl) 900000
      (by decide) (is_int_of_bounds (by decide) (by decide)) (by decide)⟩

/-- C8 (Scenario D) as stated fails: with the table {300000, 600000, 900000}
and the bound {-1, 600000} on cluster 0, `set_max_cpu_freq(0, 0)` does not
return 0; it returns -EINVAL and the `max` of cluster 0 stays 600000. -/
theorem scenario_D_counterexample :
    ¬ (∃ st1, set_max_cpu_freq true state_A1 0 0 = some (0, st1) ∧
        ∃ b, idx st1.current_cpu_freq 0 = some b ∧ b.max = -1) := by
  have h : set_max_cpu_freq true state_A1 0 0 = some (-EINVAL, state_A1) := by decide
  rintro ⟨st1, hcall, _⟩
  rw [h] at hcall
  simp only [Option.some.injEq, Prod.mk.injEq] at hcall
  exact absurd hcall.1 (by decide)

/-- C8 as amended: for cluster 0 with the table {300000, 600000, 900000} and
any prior state, `set_max_cpu_freq(0, 0)` is rejected, since 0 is neither -1
nor a frequency of the table: it returns -EINVAL and leaves the state, the
bound of cluster 0 included, as it was. -/
theorem scenario_D_rejected (sb : Bool) (st : State)
    (htbl : idx st.cpuftbl 0 = some (some table_A)) :
    set_max_cpu_freq sb st 0 0 = some (-EINVAL, st) := by
  have hv : is_freq_valid st 0 0 = some 0 := by
    rw [is_freq_valid_eval htbl (by decide)]
    decide
  unfold set_max_cpu_freq
  rw [hv]
  rfl

/-- Witness of the amended C8: the prior bound {-1, 600000}. -/
theorem scenario_D_rejected_witness :
    idx state_A1.cpuftbl 0 = some (some table_A) ∧
      set_max_cpu_freq true state_A1 0 0 = some (-EINVAL, state_A1) :=
  ⟨rfl, scenario_D_rejected true state_A1 rfl⟩

/-- C9 (normalised commit, step 4): whenever `set_max_cpu_freq(c, v)` returns
0, the `max` field of cluster `c` afterwards is `v` if `v > 0` and -1 if
`v <= 0`; whenever `set_min_cpu_freq(c, v)` returns 0, the same holds of the
`min` field. -/
theorem normalised_commit (sb : Bool) (st st1 : State) (c v : Int) :
    (set_max_cpu_freq sb st c v = some (0, st1) →
      ∃ b, idx st1.current_cpu_freq c = some b ∧
        b.max = if v > 0 then v else -1) ∧
    (set_min_cpu_freq sb st c v = some (0, st1) →
      ∃ b, idx st1.current_cpu_freq c = some b ∧
        b.min = if v > 0 then v else -1) := by
  have hE : (-EINVAL : Int) ≠ 0 := by decide
  constructor
  · intro h
    rcases set_max_cpu_freq_cases h with
      ⟨h0, _⟩ | ⟨_, valid, cur, _, _, hcur, _, _, hset, _⟩
    · exact absurd h0.symm hE
    · refine ⟨⟨cur.min, if v > 0 then v else -1⟩, ?_, rfl⟩
      rw [hset, idx_set _ _ (nonneg_of_idx hcur), if_pos rfl, hcur]; rfl
  · intro h
    rcases set_min_cpu_freq_cases h with
      ⟨h0, _⟩ | ⟨_, valid, cur, _, _, hcur, _, _, hset, _⟩
    · exact absurd h0.symm hE
    · refine ⟨⟨if v > 0 then v else -1, cur.max⟩, ?_, rfl⟩
      rw [hset, idx_set _ _ (nonneg_of_idx hcur), if_pos rfl, hcur]; rfl

/-- Witness of C9: the accepted call `set_max_cpu_freq(0, 900000)` of
Scenario C. -/
theorem normalised_commit_witness :
    set_max_cpu_freq true state_A1 0 900000 = some (0, state_C1) ∧
      ∃ b, idx state_C1.current_cpu_freq 0 = some b ∧
        b.max = if (900000 : Int) > 0 then 900000 else -1 :=
  ⟨step_C1, (normalised_commit true state_A1 state_C1 0 900000).1 step_C1⟩

/-- C10 (absent table, Scenario E), evaluated where the code departs from it:
with no table registered for cluster 1 (`cpuftbl[1]` is `NULL`),
`is_freq_valid(1, 300000)` reads `pos->frequency` through the `NULL` pointer
and has no result, and so has `set_min_cpu_freq(1, 300000)`: the call is not
rejected with -EINVAL.  `set_min_cpu_freq(1, -1)` is accepted, the early return
for -1 coming before the walk over the table. -/
theorem absent_table_faults :
    idx (init_state tables_A).cpuftbl 1 = some none ∧
      is_freq_valid (init_state tables_A) 1 300000 = none ∧
      set_min_cpu_freq true (init_state tables_A) 1 300000 = none ∧
      (¬ ∃ st1, set_min_cpu_freq true (init_state tables_A) 1 300000 =
        some (-EINVAL, st1)) ∧
      ∃ st1, set_min_cpu_freq true (init_state tables_A) 1 (-1) = some (0, st1) := by
  have h : set_min_cpu_freq true (init_state tables_A) 1 300000 = none := by decide
  refine ⟨by decide, by decide, h, ?_, ?_⟩
  · rintro ⟨st1, hcall⟩
    rw [h] at hcall
    exact absurd hcall (by simp)
  · rcases set_min_cpu_freq_eval true (is_freq_valid_sentinel (init_state tables_A) 1)
      (by decide) (show idx (init_state tables_A).current_cpu_freq 1 = some ⟨-1, -1⟩
        from rfl) with ⟨⟨h, _⟩, _⟩ | ⟨_, h⟩
    · exact absurd h (by decide)
    · exact h

/-! ## The external calls of an accepted call -/

/-- The external calls `update_cpu_freq` makes: a `set_sched_boost` first when
`CONFIG_MTK_SCHED_BOOST` is defined, with the intent computed from the bound
of the cluster by the tests `> 0`, then one `update_userlimit_cpu_freq` with
the whole bound array. -/
theorem update_cpu_freq_calls {sb : Bool} {st st2 : State} {c : Int}
    (h : update_cpu_freq sb st c = some st2) :
    st2.cpuftbl = st.cpuftbl ∧ st2.current_cpu_freq = st.current_cpu_freq ∧
      ((sb = false ∧ st2.calls = st.calls ++
          [Call.update_userlimit_cpu_freq ppm_kicker.CPU_KIR_PERF CLUSTER_NUM
            st.current_cpu_freq]) ∨
        (sb = true ∧ ∃ cur, idx st.current_cpu_freq c = some cur ∧
          st2.calls = st.calls ++
            [Call.set_sched_boost
              (if cur.min > 0 ∨ cur.max > 0 then sched_boost_type.SCHED_ALL_BOOST
                else sched_boost_type.SCHED_NO_BOOST),
             Call.update_userlimit_cpu_freq ppm_kicker.CPU_KIR_PERF CLUSTER_NUM
              st.current_cpu_freq])) := by
  unfold update_cpu_freq at h
  cases sb with
  | false =>
    simp only [Bool.false_eq_true, if_false, Option.some.injEq] at h
    subst h
    exact ⟨rfl, rfl, Or.inl ⟨rfl, rfl⟩⟩
  | true =>
    simp only [if_true] at h
    split at h
    · simp at h
    · rename_i cur hcur
      simp only [Option.some.injEq] at h
      subst h
      exact ⟨rfl, rfl, Or.inr ⟨rfl, cur, hcur, rfl⟩⟩

/-- An accepted `set_max_cpu_freq` is the write of the `max` field followed by
`update_cpu_freq`. -/
theorem set_max_cpu_freq_commit {sb : Bool} {st st1 : State} {c v : Int}
    (h : set_max_cpu_freq sb st c v = some (0, st1)) :
    ∃ cur, idx st.current_cpu_freq c = some cur ∧
      update_cpu_freq sb
        ⟨st.cpuftbl, st.current_cpu_freq.set c.toNat
          ⟨cur.min, if v > 0 then v else -1⟩, st.calls⟩ c = some st1 := by
  have hE : (-EINVAL : Int) ≠ 0 := by decide
  unfold set_max_cpu_freq at h
  split at h
  · simp at h
  · split at h
    · simp only [Option.some.injEq, Prod.mk.injEq] at h
      exact absurd h.1 hE
    · split at h
      · simp at h
      · rename_i cur hcur
        split at h
        · simp only [Option.some.injEq, Prod.mk.injEq] at h
          exact absurd h.1 hE
        · refine ⟨cur, hcur, ?_⟩
          cases hup : update_cpu_freq sb
              ⟨st.cpuftbl, st.current_cpu_freq.set c.toNat
                ⟨cur.min, if v > 0 then v else -1⟩, st.calls⟩ c with
          | none => simp only [hup] at h; simp at h
          | some st2 =>
            simp only [hup, Option.some.injEq, Prod.mk.injEq, true_and] at h
            rw [h]

/-- An accepted `set_min_cpu_freq` is the write of the `min` field followed by
`update_cpu_freq`. -/
theorem set_min_cpu_freq_commit {sb : Bool} {st st1 : State} {c v : Int}
    (h : set_min_cpu_freq sb st c v = some (0, st1)) :
    ∃ cur, idx st.current_cpu_freq c = some cur ∧
      update_cpu_freq sb
        ⟨st.cpuftbl, st.current_cpu_freq.set c.toNat
          ⟨if v > 0 then v else -1, cur.max⟩, st.calls⟩ c = some st1 := by
  have hE : (-EINVAL : Int) ≠ 0 := by decide
  unfold set_min_cpu_freq at h
  split at h
  · simp at h
  · split at h
    · simp only [Option.some.injEq, Prod.mk.injEq] at h
      exact absurd h.1 hE
    · split at h
      · simp at h
      · rename_i cur hcur
        split at h
        · simp only [Option.some.injEq, Prod.mk.injEq] at h
          exact absurd h.1 hE
        · refine ⟨cur, hcur, ?_⟩
          cases hup : update_cpu_freq sb
              ⟨st.cpuftbl, st.current_cpu_freq.set c.toNat
                ⟨if v > 0 then v else -1, cur.max⟩, st.calls⟩ c with
          | none => simp only [hup] at h; simp at h
          | some st2 =>
            simp only [hup, Option.some.injEq, Prod.mk.injEq, true_and] at h
            rw [h]

/-- The external calls of an accepted setter call, read off the state after
it: the calls made are appended to the record, at most one `set_sched_boost`
comes first, and one `update_userlimit_cpu_freq` with the bound array after the
commit ends them. -/
theorem calls_of_commit {sb : Bool} {pre st1 : State} {c : Int}
    (h : update_cpu_freq sb pre c = some st1) :
    st1.current_cpu_freq = pre.current_cpu_freq ∧
      ∃ new, st1.calls = pre.calls ++ new ∧
        new.filter is_userlimit_call =
          [Call.update_userlimit_cpu_freq ppm_kicker.CPU_KIR_PERF CLUSTER_NUM
            st1.current_cpu_freq] ∧
        new.getLast? =
          some (Call.update_userlimit_cpu_freq ppm_kicker.CPU_KIR_PERF CLUSTER_NUM
            st1.current_cpu_freq) := by
  obtain ⟨_, hcur, hcalls⟩ := update_cpu_freq_calls h
  refine ⟨hcur, ?_⟩
  rcases hcalls with ⟨_, hc⟩ | ⟨_, cur, _, hc⟩
  · exact ⟨_, hc, by rw [hcur]; rfl, by rw [hcur]; rfl⟩
  · exact ⟨_, hc, by rw [hcur]; rfl, by rw [hcur]; rfl⟩

/-- On a bound whose fields are -1 or positive, the intent computed by the
tests `> 0` is `SCHED_ALL_BOOST` exactly when a field differs from -1, and
`SCHED_NO_BOOST` exactly when none does. -/
theorem boost_of_bound_ok {b : ppm_limit_data} (hb : bound_ok b) :
    ((if b.min > 0 ∨ b.max > 0 then sched_boost_type.SCHED_ALL_BOOST
        else sched_boost_type.SCHED_NO_BOOST) = sched_boost_type.SCHED_ALL_BOOST ↔
      (b.min ≠ -1 ∨ b.max ≠ -1)) ∧
    ((if b.min > 0 ∨ b.max > 0 then sched_boost_type.SCHED_ALL_BOOST
        else sched_boost_type.SCHED_NO_BOOST) = sched_boost_type.SCHED_NO_BOOST ↔
      ¬ (b.min ≠ -1 ∨ b.max ≠ -1)) := by
  obtain ⟨h1, h2, _⟩ := hb
  by_cases h : b.min > 0 ∨ b.max > 0
  · have hne : b.min ≠ -1 ∨ b.max ≠ -1 := by omega
    simp only [h, if_true, hne, true_iff, not_true_eq_false, iff_false]
    exact ⟨trivial, by decide⟩
  · have hne : ¬ (b.min ≠ -1 ∨ b.max ≠ -1) := by omega
    simp only [h, if_false, hne, iff_false, not_false_eq_true, iff_true]
    exact ⟨by decide, trivial⟩

/-- C11 (full-snapshot propagation): every accepted `set_max_cpu_freq` or
`set_min_cpu_freq` call appends its external calls to the record, and among
them there is exactly one call to `update_userlimit_cpu_freq`; its arguments
are `CPU_KIR_PERF`, 2 (`CLUSTER_NUM`) and the bound array as it stands after
the commit, which is the array before the call with the one field of cluster
`c` overwritten. -/
theorem full_snapshot_propagation (sb : Bool) (st st1 : State) (c v : Int) :
    (set_max_cpu_freq sb st c v = some (0, st1) →
      ∃ cur new, idx st.current_cpu_freq c = some cur ∧
        st1.current_cpu_freq = st.current_cpu_freq.set c.toNat
          ⟨cur.min, if v > 0 then v else -1⟩ ∧
        st1.calls = st.calls ++ new ∧
        new.filter is_userlimit_call =
          [Call.update_userlimit_cpu_freq ppm_kicker.CPU_KIR_PERF 2
            st1.current_cpu_freq]) ∧
    (set_min_cpu_freq sb st c v = some (0, st1) →
      ∃ cur new, idx st.current_cpu_freq c = some cur ∧
        st1.current_cpu_freq = st.current_cpu_freq.set c.toNat
          ⟨if v > 0 then v else -1, cur.max⟩ ∧
        st1.calls = st.calls ++ new ∧
        new.filter is_userlimit_call =
          [Call.update_userlimit_cpu_freq ppm_kicker.CPU_KIR_PERF 2
            st1.current_cpu_freq]) := by
  constructor
  · intro h
    obtain ⟨cur, hcur, hup⟩ := set_max_cpu_freq_commit h
    obtain ⟨hstore, new, hcalls, hfilter, _⟩ := calls_of_commit hup
    exact ⟨cur, new, hcur, hstore, hcalls, hfilter⟩
  · intro h
    obtain ⟨cur, hcur, hup⟩ := set_min_cpu_freq_commit h
    obtain ⟨hstore, new, hcalls, hfilter, _⟩ := calls_of_commit hup
    exact ⟨cur, new, hcur, hstore, hcalls, hfilter⟩

/-- Witness of C11: the accepted call `set_min_cpu_freq(0, 300000)` of
Scenario C, after which both clusters are forwarded. -/
theorem full_snapshot_propagation_witness :
    set_min_cpu_freq true state_C1 0 300000 = some (0, state_C2) ∧
      ∃ cur new, idx state_C1.current_cpu_freq 0 = some cur ∧
        state_C2.current_cpu_freq = state_C1.current_cpu_freq.set (0 : Int).toNat
          ⟨if (300000 : Int) > 0 then 300000 else -1, cur.max⟩ ∧
        state_C2.calls = state_C1.calls ++ new ∧
        new.filter is_userlimit_call =
          [Call.update_userlimit_cpu_freq ppm_kicker.CPU_KIR_PERF 2
            state_C2.current_cpu_freq] :=
  ⟨step_C2, (full_snapshot_propagation true state_C1 state_C2 0 300000).2 step_C2⟩

/-- C12 (boost intent): with `CONFIG_MTK_SCHED_BOOST` defined, an accepted
`set_max_cpu_freq` or `set_min_cpu_freq` call on cluster `c` made from a
reachable state makes one call to `set_sched_boost`, the first of its external
calls; the value passed is `SCHED_ALL_BOOST` exactly when `min != -1` or
`max != -1` holds of the bound of `c` after the commit, and `SCHED_NO_BOOST`
exactly when it does not. -/
theorem boost_intent (tbls : List (Option FreqTable)) (st st1 : State)
    (c v : Int) (hreach : Reachable true tbls st) :
    (set_max_cpu_freq true st c v = some (0, st1) →
      ∃ b boost rest, idx st1.current_cpu_freq c = some b ∧
        st1.calls = st.calls ++ Call.set_sched_boost boost :: rest ∧
        rest.filter is_boost_call = [] ∧
        (boost = sched_boost_type.SCHED_ALL_BOOST ↔ (b.min ≠ -1 ∨ b.max ≠ -1)) ∧
        (boost = sched_boost_type.SCHED_NO_BOOST ↔ ¬ (b.min ≠ -1 ∨ b.max ≠ -1))) ∧
    (set_min_cpu_freq true st c v = some (0, st1) →
      ∃ b boost rest, idx st1.current_cpu_freq c = some b ∧
        st1.calls = st.calls ++ Call.set_sched_boost boost :: rest ∧
        rest.filter is_boost_call = [] ∧
        (boost = sched_boost_type.SCHED_ALL_BOOST ↔ (b.min ≠ -1 ∨ b.max ≠ -1)) ∧
        (boost = sched_boost_type.SCHED_NO_BOOST ↔ ¬ (b.min ≠ -1 ∨ b.max ≠ -1))) := by
  have hok := store_ok_of_reachable hreach
  constructor
  · intro h
    have hok1 := store_ok_set_max hok h
    obtain ⟨cur, hcur, hup⟩ := set_max_cpu_freq_commit h
    obtain ⟨_, hstore, hcalls⟩ := update_cpu_freq_calls hup
    rcases hcalls with ⟨hf, _⟩ | ⟨_, b, hb, hc⟩
    · exact absurd hf (by decide)
    · rw [← hstore] at hb
      obtain ⟨h1, h2⟩ := boost_of_bound_ok (hok1.2 b (mem_of_idx hb))
      exact ⟨b, _, _, hb, hc, rfl, h1, h2⟩
  · intro h
    have hok1 := store_ok_set_min hok h
    obtain ⟨cur, hcur, hup⟩ := set_min_cpu_freq_commit h
    obtain ⟨_, hstore, hcalls⟩ := update_cpu_freq_calls hup
    rcases hcalls with ⟨hf, _⟩ | ⟨_, b, hb, hc⟩
    · exact absurd hf (by decide)
    · rw [← hstore] at hb
      obtain ⟨h1, h2⟩ := boost_of_bound_ok (hok1.2 b (mem_of_idx hb))
      exact ⟨b, _, _, hb, hc, rfl, h1, h2⟩

/-- Witness of C12: the accepted call `set_max_cpu_freq(0, 900000)` of
Scenario C, made in the reachable state where cluster 0 holds {-1, 600000}. -/
theorem boost_intent_witness :
    Reachable true tables_A state_A1 ∧
      set_max_cpu_freq true state_A1 0 900000 = some (0, state_C1) ∧
      ∃ b boost rest, idx state_C1.current_cpu_freq 0 = some b ∧
        state_C1.calls = state_A1.calls ++ Call.set_sched_boost boost :: rest ∧
        rest.filter is_boost_call = [] ∧
        (boost = sched_boost_type.SCHED_ALL_BOOST ↔ (b.min ≠ -1 ∨ b.max ≠ -1)) ∧
        (boost = sched_boost_type.SCHED_NO_BOOST ↔ ¬ (b.min ≠ -1 ∨ b.max ≠ -1)) :=
  ⟨reachable_A1, step_C1,
    (boost_intent tables_A state_A1 state_C1 0 900000 reachable_A1).1 step_C1⟩

/-- C13 (reject reasons are distinguishable) as stated fails: in the state
where cluster 0 holds {-1, 600000}, `set_min_cpu_freq(0, 450000)` is rejected
because 450000 is not in the table (`is_freq_valid` returns 0) and
`set_min_cpu_freq(0, 900000)` is rejected because 900000 is valid but above the
`max`; the two calls return the same result, -EINVAL with the state unchanged.
The call of Scenario B from {-1, -1} returns -EINVAL as well. -/
theorem reject_reasons_counterexample :
    is_freq_valid state_A1 0 450000 = some 0 ∧
      is_freq_valid state_A1 0 900000 = some 1 ∧
      set_min_cpu_freq true state_A1 0 450000 = some (-EINVAL, state_A1) ∧
      set_min_cpu_freq true state_A1 0 900000 = some (-EINVAL, state_A1) ∧
      set_min_cpu_freq true (init_state tables_A) 0 450000 =
        some (-EINVAL, init_state tables_A) ∧
      ¬ (set_min_cpu_freq true state_A1 0 450000 ≠
          set_min_cpu_freq true state_A1 0 900000) := by
  refine ⟨by decide, by decide, by decide, by decide, by decide, by decide⟩

/-- C13 as amended: a rejected `set_min_cpu_freq` or `set_max_cpu_freq` call
returns -EINVAL whatever the reason, an invalid frequency or a violated
ordering; the status tells a rejection from success and nothing more. -/
theorem reject_status_is_einval (sb : Bool) (st st1 : State) (c v r : Int)
    (hr : r ≠ 0) :
    (set_min_cpu_freq sb st c v = some (r, st1) → r = -EINVAL) ∧
      (set_max_cpu_freq sb st c v = some (r, st1) → r = -EINVAL) := by
  constructor
  · intro h
    rcases set_min_cpu_freq_cases h with ⟨hE, _⟩ | ⟨h0, _⟩
    · exact hE
    · exact absurd h0 hr
  · intro h
    rcases set_max_cpu_freq_cases h with ⟨hE, _⟩ | ⟨h0, _⟩
    · exact hE
    · exact absurd h0 hr

/-- Witness of the amended C13: the call of Scenario B, rejected for an
invalid frequency. -/
theorem reject_status_is_einval_witness :
    (-22 : Int) ≠ 0 ∧
      set_min_cpu_freq true (init_state tables_A) 0 450000 =
        some (-22, init_state tables_A) ∧
      (-22 : Int) = -EINVAL :=
  ⟨by decide, by decide,
    (reject_status_is_einval true (init_state tables_A) (init_state tables_A) 0 450000
      (-22) (by decide)).1 (by decide)⟩

/-! ## Cluster indices outside the arrays -/

/-- An array of `CLUSTER_NUM` elements has no element at an index outside
`[0, CLUSTER_NUM)`. -/
theorem idx_out_of_range {α : Type} {xs : List α} (hl : xs.length = CLUSTER_NUM)
    {c : Int} (hc : c < 0 ∨ (CLUSTER_NUM : Int) ≤ c) : idx xs c = none := by
  unfold idx
  by_cases h0 : 0 ≤ c
  · rw [if_pos h0]
    apply List.getElem?_eq_none
    rw [hl]
    omega
  · rw [if_neg h0]

/-- C14 (invalid cluster is checked) as stated fails.  `is_freq_valid` is
declared `int is_freq_valid(int cluster, int freq)` without `static`, so every
`int` is a well-formed `cluster`.  With two clusters the index 2 is outside
`[0, CLUSTER_NUM)`, and `is_freq_valid(2, -1)` returns 1: the early return for
-1 comes first and no test of `cluster` exists, so the call is not rejected
with an error. -/
theorem invalid_cluster_counterexample :
    ¬ ((0 : Int) ≤ 2 ∧ (2 : Int) < (CLUSTER_NUM : Int)) ∧
      is_freq_valid (init_state tables_A) 2 (-1) = some 1 ∧
      ¬ (∃ r, is_freq_valid (init_state tables_A) 2 (-1) = some r ∧ r ≤ 0) := by
  have h : is_freq_valid (init_state tables_A) 2 (-1) = some 1 := by decide
  refine ⟨by decide, h, ?_⟩
  rintro ⟨r, hr, hle⟩
  rw [h] at hr
  simp only [Option.some.injEq] at hr
  omega

/-- C14 as amended: the cluster index is not checked by `is_freq_valid`,
`set_min_cpu_freq` or `set_max_cpu_freq`.  `is_freq_valid(cluster, -1)` returns
1 for every index, inside `[0, CLUSTER_NUM)` or not, and every rejection a
setter returns is for an invalid frequency or a violated ordering, none for the
index.  The index is kept in range by the callers instead: each of the four
store endpoints is the shared body around a setter call with `LITTLE` or `BIG`,
both inside `[0, CLUSTER_NUM)` and inside both arrays, so with both tables
registered every write through an endpoint returns, no array being read
outside its bounds.  What a setter does with an index outside
`[0, CLUSTER_NUM)` is left open. -/
theorem invalid_cluster_unchecked (kstrtoint : String → Int × Int) (sb : Bool)
    (st : State) (hl1 : st.cpuftbl.length = CLUSTER_NUM)
    (hl2 : st.current_cpu_freq.length = CLUSTER_NUM) :
    (∀ c : Int, is_freq_valid st c (-1) = some 1) ∧
    (∀ c v r st1, r ≠ 0 →
      (set_max_cpu_freq sb st c v = some (r, st1) →
        is_freq_valid st c v = some 0 ∨
          ∃ cur, idx st.current_cpu_freq c = some cur ∧ v < cur.min ∧ cur.min > 0) ∧
      (set_min_cpu_freq sb st c v = some (r, st1) →
        is_freq_valid st c v = some 0 ∨
          ∃ cur, idx st.current_cpu_freq c = some cur ∧ v > cur.max ∧ cur.max > 0)) ∧
    (∀ p ∈ store_endpoints kstrtoint sb, ∃ c : Int,
      (c = LITTLE ∨ c = BIG) ∧ (0 ≤ c ∧ c < (CLUSTER_NUM : Int)) ∧
      (p.2 = (fun s v => set_min_cpu_freq sb s c v) ∨
        p.2 = (fun s v => set_max_cpu_freq sb s c v)) ∧
      (∀ s buf count, p.1 s buf count =
        if (kstrtoint buf).1 ≠ 0 then some ((kstrtoint buf).1, s)
        else
          match p.2 s (kstrtoint buf).2 with
          | none => none
          | some (ret, s1) => some (if ret ≠ 0 then ret else (count : Int), s1)) ∧
      (∃ t b, idx st.cpuftbl c = some t ∧ idx st.current_cpu_freq c = some b)) ∧
    ((∀ c : Int, c = LITTLE ∨ c = BIG →
        ∃ tbl, idx st.cpuftbl c = some (some tbl) ∧ CPUFREQ_TABLE_END ∈ tbl) →
      ∀ p ∈ store_endpoints kstrtoint sb, ∀ buf count,
        ∃ r s1, p.1 st buf count = some (r, s1)) := by
  have hin : ∀ c : Int, c = LITTLE ∨ c = BIG →
      ∃ t b, idx st.cpuftbl c = some t ∧ idx st.current_cpu_freq c = some b := by
    intro c hc
    obtain ⟨t, ht⟩ := idx_of_length hl1 (c := c) hc
    obtain ⟨b, hb⟩ := idx_of_length hl2 (c := c) hc
    exact ⟨t, b, ht, hb⟩
  refine ⟨fun c => is_freq_valid_sentinel st c, ?_, ?_, ?_⟩
  · intro c v r st1 hr
    constructor
    · intro h
      rcases set_max_cpu_freq_cases h with ⟨_, _, hwhy⟩ | ⟨h0, _⟩
      · exact hwhy
      · exact absurd h0 hr
    · intro h
      rcases set_min_cpu_freq_cases h with ⟨_, _, hwhy⟩ | ⟨h0, _⟩
      · exact hwhy
      · exact absurd h0 hr
  · intro p hp
    simp only [store_endpoints, List.mem_cons, List.mem_singleton, List.not_mem_nil,
      or_false] at hp
    rcases hp with rfl | rfl | rfl | rfl
    · exact ⟨LITTLE, Or.inl rfl, by decide, Or.inl rfl, fun _ _ _ => rfl,
        hin LITTLE (Or.inl rfl)⟩
    · exact ⟨LITTLE, Or.inl rfl, by decide, Or.inr rfl, fun _ _ _ => rfl,
        hin LITTLE (Or.inl rfl)⟩
    · exact ⟨BIG, Or.inr rfl, by decide, Or.inl rfl, fun _ _ _ => rfl,
        hin BIG (Or.inr rfl)⟩
    · exact ⟨BIG, Or.inr rfl, by decide, Or.inr rfl, fun _ _ _ => rfl,
        hin BIG (Or.inr rfl)⟩
  · intro hreg p hp buf count
    have tot : ∀ (E : State → String → Nat → Option (Int × State))
        (setter : State → Int → Option (Int × State)),
        (E st buf count =
          if (kstrtoint buf).1 ≠ 0 then some ((kstrtoint buf).1, st)
          else
            match setter st (kstrtoint buf).2 with
            | none => none
            | some (ret, s1) => some (if ret ≠ 0 then ret else (count : Int), s1)) →
        (∃ r s1, setter st (kstrtoint buf).2 = some (r, s1)) →
        ∃ r s1, E st buf count = some (r, s1) := by
      intro E setter hE hset
      rw [hE]
      by_cases hparse : (kstrtoint buf).1 ≠ 0
      · rw [if_pos hparse]
        exact ⟨_, _, rfl⟩
      · obtain ⟨r, s1, hs⟩ := hset
        rw [if_neg hparse, hs]
        exact ⟨_, _, rfl⟩
    have ret : ∀ c : Int, c = LITTLE ∨ c = BIG →
        (∃ r s1, set_max_cpu_freq sb st c (kstrtoint buf).2 = some (r, s1)) ∧
          (∃ r s1, set_min_cpu_freq sb st c (kstrtoint buf).2 = some (r, s1)) := by
      intro c hc
      obtain ⟨tbl, htbl, hend⟩ := hreg c hc
      obtain ⟨b, hb⟩ := idx_of_length hl2 (c := c) hc
      exact setters_return sb (kstrtoint buf).2 htbl hend hb
    simp only [store_endpoints, List.mem_cons, List.mem_singleton, List.not_mem_nil,
      or_false] at hp
    rcases hp with rfl | rfl | rfl | rfl
    · exact tot _ (fun s v => set_min_cpu_freq sb s LITTLE v) rfl
        (ret LITTLE (Or.inl rfl)).2
    · exact tot _ (fun s v => set_max_cpu_freq sb s LITTLE v) rfl
        (ret LITTLE (Or.inl rfl)).1
    · exact tot _ (fun s v => set_min_cpu_freq sb s BIG v) rfl
        (ret BIG (Or.inr rfl)).2
    · exact tot _ (fun s v => set_max_cpu_freq sb s BIG v) rfl
        (ret BIG (Or.inr rfl)).1

/-- Witness of the amended C14: the initial state with both tables
registered.  Writing the seven bytes of 600000 and a newline to
`bcluster_max_freq` goes through `set_max_cpu_freq(BIG, 600000)` and returns
7. -/
theorem invalid_cluster_unchecked_witness :
    (init_state tables_B).cpuftbl.length = CLUSTER_NUM ∧
      (init_state tables_B).current_cpu_freq.length = CLUSTER_NUM ∧
      is_freq_valid (init_state tables_B) 7 (-1) = some 1 ∧
      (store_bcluster_max_freq sample_kstrtoint true (init_state tables_B)
          "600000\n" 7).map Prod.fst = some 7 ∧
      (∀ p ∈ store_endpoints sample_kstrtoint true, ∀ buf count,
        ∃ r s1, p.1 (init_state tables_B) buf count = some (r, s1)) :=
  ⟨rfl, rfl,
    (invalid_cluster_unchecked sample_kstrtoint true (init_state tables_B) rfl rfl).1 7,
    by decide,
    (invalid_cluster_unchecked sample_kstrtoint true (init_state tables_B) rfl
      rfl).2.2.2 (by
        rintro c (rfl | rfl)
        · exact ⟨table_A, rfl, by decide⟩
        · exact ⟨table_A, rfl, by decide⟩)⟩

/-! ## The store endpoints -/

/-- What a store endpoint returns, for a body of the shape the four endpoints
share: the parse status when it is not 0, else `count` when the setter returns
0 and the setter's status when it does not. -/
theorem store_body_status (k : String → Int × Int) (setter : State → Int → Option (Int × State))
    (st : State) (buf : String) (count : Nat) :
    let body : Option (Int × State) :=
      if (k buf).1 ≠ 0 then some ((k buf).1, st)
      else
        match setter st (k buf).2 with
        | none => none
        | some (ret, st1) => some (if ret ≠ 0 then ret else (count : Int), st1)
    ((k buf).1 ≠ 0 → body = some ((k buf).1, st)) ∧
      ((k buf).1 = 0 → ∀ r st1, setter st (k buf).2 = some (r, st1) →
        (r = 0 → body = some ((count : Int), st1)) ∧
        (r ≠ 0 → body = some (r, st1))) := by
  intro body
  constructor
  · intro h
    show (if (k buf).1 ≠ 0 then _ else _) = _
    rw [if_pos h]
  · intro h r st1 hs
    have hb : body = some (if r ≠ 0 then r else (count : Int), st1) := by
      show (if (k buf).1 ≠ 0 then _ else _) = _
      rw [if_neg (not_not.mpr h), hs]
    constructor
    · intro h0
      rw [hb, if_neg (not_not.mpr h0)]
    · intro h0
      rw [hb, if_pos h0]

/-- C15 (attribute write status): for each of the four store endpoints, with
`kstrtoint` returning 0 or a negative status: when the parse status is not 0
the endpoint returns it, it is negative, and the state is the one before the
call, whatever the setter would do; when the parse yields `v` and the setter
accepts `v`, the endpoint returns `count`; when the setter rejects `v`, the
endpoint returns -EINVAL, a negative status, with the state unchanged. -/
theorem attribute_write_status (kstrtoint : String → Int × Int)
    (hk : ∀ buf, (kstrtoint buf).1 ≤ 0) (sb : Bool) (st : State) (buf : String)
    (count : Nat) :
    ∀ p ∈ store_endpoints kstrtoint sb,
      ((kstrtoint buf).1 ≠ 0 →
        p.1 st buf count = some ((kstrtoint buf).1, st) ∧ (kstrtoint buf).1 < 0) ∧
      ((kstrtoint buf).1 = 0 → ∀ r st1, p.2 st (kstrtoint buf).2 = some (r, st1) →
        (r = 0 → p.1 st buf count = some ((count : Int), st1)) ∧
        (r ≠ 0 → p.1 st buf count = some (-EINVAL, st) ∧ st1 = st ∧
          (-EINVAL : Int) < 0)) := by
  intro p hp
  have hneg : (kstrtoint buf).1 ≠ 0 → (kstrtoint buf).1 < 0 := fun h =>
    lt_of_le_of_ne (hk buf) h
  have key : ∀ (E : State → String → Nat → Option (Int × State))
      (setter : State → Int → Option (Int × State)),
      (∀ r st1, setter st (kstrtoint buf).2 = some (r, st1) → r ≠ 0 →
        r = -EINVAL ∧ st1 = st) →
      (E st buf count =
        if (kstrtoint buf).1 ≠ 0 then some ((kstrtoint buf).1, st)
        else
          match setter st (kstrtoint buf).2 with
          | none => none
          | some (ret, st1) => some (if ret ≠ 0 then ret else (count : Int), st1)) →
      ((kstrtoint buf).1 ≠ 0 →
        E st buf count = some ((kstrtoint buf).1, st) ∧ (kstrtoint buf).1 < 0) ∧
      ((kstrtoint buf).1 = 0 → ∀ r st1, setter st (kstrtoint buf).2 = some (r, st1) →
        (r = 0 → E st buf count = some ((count : Int), st1)) ∧
        (r ≠ 0 → E st buf count = some (-EINVAL, st) ∧ st1 = st ∧
          (-EINVAL : Int) < 0)) := by
    intro E setter hrej hE
    obtain ⟨h1, h2⟩ := store_body_status kstrtoint setter st buf count
    rw [hE]
    refine ⟨fun h => ⟨h1 h, hneg h⟩, ?_⟩
    intro h r st1 hs
    obtain ⟨h3, h4⟩ := h2 h r st1 hs
    refine ⟨h3, ?_⟩
    intro hr
    obtain ⟨hrE, hst⟩ := hrej r st1 hs hr
    rw [h4 hr, hrE, hst]
    exact ⟨rfl, rfl, by decide⟩
  have rej_min : ∀ c r st1, set_min_cpu_freq sb st c (kstrtoint buf).2 = some (r, st1) →
      r ≠ 0 → r = -EINVAL ∧ st1 = st := by
    intro c r st1 h hr
    rcases set_min_cpu_freq_cases h with ⟨hE, hst, _⟩ | ⟨h0, _⟩
    · exact ⟨hE, hst⟩
    · exact absurd h0 hr
  have rej_max : ∀ c r st1, set_max_cpu_freq sb st c (kstrtoint buf).2 = some (r, st1) →
      r ≠ 0 → r = -EINVAL ∧ st1 = st := by
    intro c r st1 h hr
    rcases set_max_cpu_freq_cases h with ⟨hE, hst, _⟩ | ⟨h0, _⟩
    · exact ⟨hE, hst⟩
    · exact absurd h0 hr
  simp only [store_endpoints, List.mem_cons, List.mem_singleton, List.not_mem_nil,
    or_false] at hp
  rcases hp with rfl | rfl | rfl | rfl
  · exact key _ _ (rej_min LITTLE) rfl
  · exact key _ _ (rej_max LITTLE) rfl
  · exact key _ _ (rej_min BIG) rfl
  · exact key _ _ (rej_max BIG) rfl

theorem sample_kstrtoint_status (buf : String) : (sample_kstrtoint buf).1 ≤ 0 := by
  unfold sample_kstrtoint
  split
  · exact le_refl _
  · decide

/-- Witness of C15: writing the seven bytes of 600000 and a newline to
`lcluster_max_freq` in the initial state of the scenarios returns 7 and leaves
cluster 0 with {-1, 600000}. -/
theorem attribute_write_status_witness :
    (∀ buf, (sample_kstrtoint buf).1 ≤ 0) ∧
      (sample_kstrtoint "600000\n").1 = 0 ∧
      store_lcluster_max_freq sample_kstrtoint true (init_state tables_A) "600000\n" 7 =
        some (7, state_A1) :=
  ⟨sample_kstrtoint_status, by decide,
    ((attribute_write_status sample_kstrtoint sample_kstrtoint_status true
        (init_state tables_A) "600000\n" 7
        (store_lcluster_max_freq sample_kstrtoint true,
          fun st v => set_max_cpu_freq true st LITTLE v)
        (by simp [store_endpoints])).2 (by decide) 0 state_A1 (by decide)).1 rfl⟩

/-! ## Registration of a table -/

/-- For a machine `int`, the conversion to `unsigned int` gives 6 only for 6
and 0 only for 0. -/
theorem to_unsigned_eq_start {cpu : Int} (h : is_int cpu) :
    (to_unsigned cpu = topology.big_cpu_start ↔ cpu = 6) ∧
      (to_unsigned cpu = topology.ltl_cpu_start ↔ cpu = 0) := by
  unfold is_int INT_MIN INT_MAX at h
  unfold to_unsigned topology
  constructor <;> constructor <;> intro h1 <;> simp only at h1 ⊢ <;> omega

/-- C16 (table registration): for an `int` `cpu` and the static array of
`CLUSTER_NUM` table pointers, `cpufreq_mtk_set_table(cpu, t)` with `cpu` equal
to 0 puts `t` in the slot `LITTLE` and keeps the slot `BIG`, with `cpu` equal
to 6 puts `t` in the slot `BIG` and keeps the slot `LITTLE`, and for every
other `cpu` keeps both; a second call for the same `cpu` leaves the tables the
second call alone would leave; the bound array, the record of external calls
and the number of slots are unchanged in all cases. -/
theorem table_registration (st : State) (cpu : Int) (t t2 : Option FreqTable)
    (hl : st.cpuftbl.length = CLUSTER_NUM) (hcpu : is_int cpu) :
    (cpu = 0 →
      idx (cpufreq_mtk_set_table st cpu t).cpuftbl LITTLE = some t ∧
      idx (cpufreq_mtk_set_table st cpu t).cpuftbl BIG = idx st.cpuftbl BIG) ∧
    (cpu = 6 →
      idx (cpufreq_mtk_set_table st cpu t).cpuftbl BIG = some t ∧
      idx (cpufreq_mtk_set_table st cpu t).cpuftbl LITTLE = idx st.cpuftbl LITTLE) ∧
    (cpu ≠ 0 → cpu ≠ 6 → cpufreq_mtk_set_table st cpu t = st) ∧
    cpufreq_mtk_set_table (cpufreq_mtk_set_table st cpu t) cpu t2 =
      cpufreq_mtk_set_table st cpu t2 ∧
    (cpufreq_mtk_set_table st cpu t).current_cpu_freq = st.current_cpu_freq ∧
    (cpufreq_mtk_set_table st cpu t).calls = st.calls ∧
    (cpufreq_mtk_set_table st cpu t).cpuftbl.length = CLUSTER_NUM := by
  obtain ⟨hbig, hltl⟩ := to_unsigned_eq_start hcpu
  obtain ⟨tbls, bounds, calls⟩ := st
  simp only at hl
  match tbls, hl with
  | [a, b], _ =>
    by_cases h6 : cpu = 6
    · have h0 : cpu ≠ 0 := by omega
      have hdef : ∀ (x : List (Option FreqTable)) (u : Option FreqTable),
          cpufreq_mtk_set_table ⟨x, bounds, calls⟩ cpu u =
            ⟨x.set BIG.toNat u, bounds, calls⟩ := by
        intro x u
        unfold cpufreq_mtk_set_table
        rw [if_pos (hbig.mpr h6)]
      repeat rw [hdef]
      exact ⟨fun h => absurd h h0, fun _ => ⟨rfl, rfl⟩, fun _ h => absurd h6 h, rfl,
        rfl, rfl, rfl⟩
    · have hb : ¬ to_unsigned cpu = topology.big_cpu_start := fun h => h6 (hbig.mp h)
      by_cases h0 : cpu = 0
      · have hdef : ∀ (x : List (Option FreqTable)) (u : Option FreqTable),
            cpufreq_mtk_set_table ⟨x, bounds, calls⟩ cpu u =
              ⟨x.set LITTLE.toNat u, bounds, calls⟩ := by
          intro x u
          unfold cpufreq_mtk_set_table
          rw [if_neg hb, if_pos (hltl.mpr h0)]
        repeat rw [hdef]
        exact ⟨fun _ => ⟨rfl, rfl⟩, fun h => absurd h h6, fun h _ => absurd h0 h, rfl,
          rfl, rfl, rfl⟩
      · have hlt : ¬ to_unsigned cpu = topology.ltl_cpu_start := fun h => h0 (hltl.mp h)
        have hdef : ∀ (x : State) (u : Option FreqTable),
            cpufreq_mtk_set_table x cpu u = x := by
          intro x u
          unfold cpufreq_mtk_set_table
          rw [if_neg hb, if_neg hlt]
        repeat rw [hdef]
        exact ⟨fun h => absurd h h0, fun h => absurd h h6, fun _ _ => rfl, rfl,
          rfl, rfl, rfl⟩

/-- Witness of C16: registering the table of the scenarios for cpu 6 when no
table is registered. -/
theorem table_registration_witness :
    (init_state [none, none]).cpuftbl.length = CLUSTER_NUM ∧ is_int 6 ∧
      idx (cpufreq_mtk_set_table (init_state [none, none]) 6 (some table_A)).cpuftbl BIG =
        some (some table_A) ∧
      idx (cpufreq_mtk_set_table (init_state [none, none]) 6 (some table_A)).cpuftbl LITTLE =
        idx (init_state [none, none]).cpuftbl LITTLE :=
  ⟨rfl, is_int_of_bounds (by decide) (by decide),
    (table_registration (init_state [none, none]) 6 (some table_A) none rfl
      (is_int_of_bounds (by decide) (by decide))).2.1 rfl⟩

/-- C17 (initial state): when the allocation succeeds, `cpufreq_global_kobject`
is present and `sysfs_create_group` returns 0, `cpufreq_mtk_init` returns 0 and
the bound of every cluster `i` in `[0, CLUSTER_NUM)` is {-1, -1}, the bound
array the runs of the setters start from; when the allocation fails it returns
-ENOMEM, and when the allocation succeeds and the kobject is absent it returns
-ENODEV. -/
theorem init_all_sentinel :
    (∃ arr, cpufreq_mtk_init true true 0 = (0, some arr) ∧
      (∀ i : Fin CLUSTER_NUM, arr[i.val]? = some { min := -1, max := -1 }) ∧
      arr.length = CLUSTER_NUM ∧
      ∀ tbls, (init_state tbls).current_cpu_freq = arr) ∧
    (∀ kobject status, (cpufreq_mtk_init false kobject status).1 = -ENOMEM) ∧
    (∀ status, (cpufreq_mtk_init true false status).1 = -ENODEV) := by
  refine ⟨⟨[⟨-1, -1⟩, ⟨-1, -1⟩], by decide, by decide, by decide, fun _ => rfl⟩, ?_, ?_⟩
  · intro kobject status
    rfl
  · intro status
    rfl

/-- C19 (stored values are sentinel or positive): in every state reached from
the initial all-sentinel store by calls of `set_min_cpu_freq` and
`set_max_cpu_freq`, every cluster has a bound whose `min` and `max` are each
-1 or greater than 0; hence the tests `min > 0` and `max > 0` of the source
agree there with `min != -1` and `max != -1`. -/
theorem stored_sentinel_or_positive (sb : Bool) (tbls : List (Option FreqTable))
    (st : State) (h : Reachable sb tbls st) (c : Int) (hc : c = 0 ∨ c = 1) :
    ∃ b, idx st.current_cpu_freq c = some b ∧
      (b.min = -1 ∨ 0 < b.min) ∧ (b.max = -1 ∨ 0 < b.max) ∧
      (b.min > 0 ↔ b.min ≠ -1) ∧ (b.max > 0 ↔ b.max ≠ -1) := by
  obtain ⟨hl, hall⟩ := store_ok_of_reachable h
  obtain ⟨b, hb⟩ := idx_of_length hl hc
  obtain ⟨h1, h2, _⟩ := hall b (mem_of_idx hb)
  exact ⟨b, hb, h1, h2, by omega, by omega⟩

/-- Witness of C19: the state where cluster 0 holds {-1, 900000}. -/
theorem stored_sentinel_or_positive_witness :
    Reachable true tables_A state_C1 ∧
      ∃ b, idx state_C1.current_cpu_freq 0 = some b ∧
        (b.min = -1 ∨ 0 < b.min) ∧ (b.max = -1 ∨ 0 < b.max) ∧
        (b.min > 0 ↔ b.min ≠ -1) ∧ (b.max > 0 ↔ b.max ≠ -1) :=
  ⟨reachable_C1,
    stored_sentinel_or_positive true tables_A state_C1 reachable_C1 0 (Or.inl rfl)⟩

/-- C20 (bounds can always be cleared): from every reachable state and for
every cluster `c` in `{0, 1}`, whatever the tables, `set_min_cpu_freq(c, -1)`
returns 0, `set_max_cpu_freq(c, -1)` made next returns 0, and the bound of `c`
is then {-1, -1}. -/
theorem bounds_can_be_cleared (sb : Bool) (tbls : List (Option FreqTable))
    (st : State) (h : Reachable sb tbls st) (c : Int) (hc : c = 0 ∨ c = 1) :
    ∃ st1 st2, set_min_cpu_freq sb st c (-1) = some (0, st1) ∧
      set_max_cpu_freq sb st1 c (-1) = some (0, st2) ∧
      idx st2.current_cpu_freq c = some { min := -1, max := -1 } := by
  have hE : (-EINVAL : Int) ≠ 0 := by decide
  obtain ⟨hl, hall⟩ := store_ok_of_reachable h
  obtain ⟨b, hb⟩ := idx_of_length hl hc
  have hc0 := nonneg_of_idx hb
  rcases set_min_cpu_freq_eval sb (is_freq_valid_sentinel st c) (by decide) hb with
    ⟨hord, _⟩ | ⟨_, st1, hcall1⟩
  · omega
  · rcases set_min_cpu_freq_cases hcall1 with
      ⟨h0, _⟩ | ⟨_, _, cur, _, _, hcur, _, _, hset1, _⟩
    · exact absurd h0.symm hE
    · rw [hb] at hcur
      simp only [Option.some.injEq] at hcur
      subst hcur
      have hb1 : idx st1.current_cpu_freq c = some ⟨-1, b.max⟩ := by
        rw [hset1, idx_set _ _ hc0, if_pos rfl, hb]; rfl
      rcases set_max_cpu_freq_eval sb (is_freq_valid_sentinel st1 c) (by decide) hb1 with
        ⟨hord, _⟩ | ⟨_, st2, hcall2⟩
      · exact absurd hord.1 (lt_irrefl _)
      · refine ⟨st1, st2, hcall1, hcall2, ?_⟩
        rcases set_max_cpu_freq_cases hcall2 with
          ⟨h0, _⟩ | ⟨_, _, cur2, _, _, hcur2, _, _, hset2, _⟩
        · exact absurd h0.symm hE
        · rw [hb1] at hcur2
          simp only [Option.some.injEq] at hcur2
          subst hcur2
          rw [hset2, idx_set _ _ hc0, if_pos rfl, hb1]
          rfl

/-- Witness of C20: clearing the bound {300000, 900000} of cluster 0 in the
state of Scenario C. -/
theorem bounds_can_be_cleared_witness :
    Reachable true tables_A state_C2 ∧
      ∃ st1 st2, set_min_cpu_freq true state_C2 0 (-1) = some (0, st1) ∧
        set_max_cpu_freq true st1 0 (-1) = some (0, st2) ∧
        idx st2.current_cpu_freq 0 = some { min := -1, max := -1 } :=
  ⟨reachable_C2, bounds_can_be_cleared true tables_A state_C2 reachable_C2 0 (Or.inl rfl)⟩

end CpufreqMtk
